import Mathlib

/-!
Verification of the scope-management and IR-construction core
(`src/ir/scope.h` and `src/relax/ir/ir_builder.cc`).

The development shallowly embeds the C++ classes as Lean structures and the
methods as pure state-passing functions.  Conventions:

* TVM `Map` and the name registry are modelled as association lists whose
  operations (`Set`, `erase`, `count`) mirror the TVM semantics (a `Set` on an
  absent key appends, on a present key replaces in place; `erase` removes the
  key; keys are unique in every reachable state).
* Object identity (pointers) of `Id` and `GlobalVar` allocations is modelled by
  a `uid : Nat` drawn from an allocation counter, since TVM keys `Map<Id, Expr>`
  and `Map<GlobalVar, BaseFunc>` by object identity.
* `LOG(FATAL)` / `ICHECK` failures are modelled by returning an `Err` value
  together with the state at the point of abort, so that "state unchanged on
  failure" is a provable statement rather than a modelling artifact.
* Teardown callbacks are opaque tokens; invoking one appends the token to an
  instrumentation log `cbLog`, which lets us state "callbacks run exactly once
  in registration order".
* The expression/type value model is external to the core (spec section 6); we
  model only the constructors and the `shape_` / `checked_type_` fields that
  the builder reads or writes.
* The scope stack is held top-first: C++ `push_back` / `back()` / `pop_back`
  become `cons` / `head` / `tail`.
-/

namespace Relax

/-- Identity of a relax variable: the interned name plus an allocation
identifier modelling C++ object identity (`Id` objects are compared by
pointer in `Map<Id, Expr>`). -/
structure Id where
  name : String
  uid : Nat
deriving DecidableEq, Repr

/-- Symbolic dimension expressions (`PrimExpr`); opaque to the builder, which
only stores them and takes `pattern.size()`. -/
abbrev PrimE := String

/-- Static types read/written by the builder: `ShapeType`, `DynTensorType`
(rank and element dtype) and `TupleType`.  The full hierarchy is external;
these are the constructors the core inspects. -/
inductive Ty where
  | shape : Ty
  | dynTensor (ndim : Nat) (dtype : String) : Ty
  | tuple (fields : List Ty) : Ty

/-- Expressions, restricted to the constructors the builder inspects.  Every
TVM `RelayExpr` carries mutable `shape_` and `checked_type_` fields; we thread
them on each constructor that the core can read them from. -/
inductive Expr where
  /-- A variable reference (`VarNode` / `DataflowVarNode`); `isDataflow`
  models membership in the `DataflowVarNode` subclass. -/
  | varE (vid : Id) (isDataflow : Bool) (shapeAnn : Option Expr) (tyAnn : Option Ty)
  /-- An operator reference (`OpNode`), identified by its registry name. -/
  | opE (opName : String)
  /-- A call expression; `callee` is an arbitrary expression (an `OpNode` for
  operator calls). -/
  | call (callee : Expr) (args : List Expr) (shapeAnn : Option Expr) (tyAnn : Option Ty)
  /-- A tuple literal (`TupleNode`). -/
  | tupleE (fields : List Expr) (shapeAnn : Option Expr) (tyAnn : Option Ty)
  /-- A tuple-element projection at a static index (`TupleGetItemNode`). -/
  | tupleGetItem (tup : Expr) (index : Nat) (shapeAnn : Option Expr) (tyAnn : Option Ty)
  /-- A shape expression (`ShapeExpr`) holding symbolic dimensions. -/
  | shapeExprE (dims : List PrimE)
  /-- Any other expression kind (constants etc.), with its annotations. -/
  | otherE (tag : Nat) (shapeAnn : Option Expr) (tyAnn : Option Ty)

/-- Read the `shape_` field of an expression. -/
def Expr.shapeAnnOf : Expr → Option Expr
  | .varE _ _ s _ => s
  | .opE _ => none
  | .call _ _ s _ => s
  | .tupleE _ s _ => s
  | .tupleGetItem _ _ s _ => s
  | .shapeExprE _ => none
  | .otherE _ s _ => s

/-- Read the `checked_type_` field of an expression. -/
def Expr.tyAnnOf : Expr → Option Ty
  | .varE _ _ _ t => t
  | .opE _ => none
  | .call _ _ _ t => t
  | .tupleE _ _ t => t
  | .tupleGetItem _ _ _ t => t
  | .shapeExprE _ => none
  | .otherE _ _ t => t

/-- A relax `Var` as the builder manipulates it: identity, locality
(`DataflowVarNode` subclass or not), and the two inferred annotations. -/
structure VarN where
  vid : Id
  isDataflow : Bool
  shapeAnn : Option Expr
  tyAnn : Option Ty

/-- View a `Var` as the expression it denotes. -/
def VarN.toExpr (v : VarN) : Expr := .varE v.vid v.isDataflow v.shapeAnn v.tyAnn

/-- Bindings recorded inside a block scope (`VarBinding` / `MatchShape`). -/
inductive Binding where
  | varBinding (var : VarN) (value : Expr)
  | matchShape (value : Expr) (pattern : List PrimE) (var : VarN)

/-- A `VarBinding` as a standalone record (the argument of `Emit` and
`EmitOutput`). -/
structure VB where
  var : VarN
  value : Expr

/-- A `MatchShape` binding as a standalone record. -/
structure MS where
  value : Expr
  pattern : List PrimE
  var : VarN

/-- Fatal construction-time error conditions (`LOG(FATAL)` / `ICHECK`). -/
inductive Err where
  | duplicateName
  | emptyStack
  | invalidScope
  | scopeDiscipline
  | unboundVar
  | noModuleScope
  | typeMismatch
  | typeUnchecked
  | tupleFieldType
  | indexOutOfBounds
deriving DecidableEq, Repr

/-! ## The name registry (`ScopeManagerNode::name2value`) -/

/-- Values stored in `name2value` are arbitrary `ObjectRef`s; the core never
inspects them, so they are opaque tokens. -/
abbrev Val := Nat

/-- The registry `Map<String, ObjectRef>` as an association list. -/
abbrev Registry := List (String × Val)

/-- Lookup in the registry (TVM `Map::find`). -/
def Registry.lookupName (m : Registry) (n : String) : Option Val :=
  match m with
  | [] => none
  | (k, v) :: rest => if k = n then some v else Registry.lookupName rest n

/-- TVM `Map::count` restricted to its use sites (`== 0` tests). -/
def Registry.countName (m : Registry) (n : String) : Nat :=
  match Registry.lookupName m n with
  | some _ => 1
  | none => 0

/-- TVM `Map::Set`: replace in place if the key is present, append otherwise. -/
def Registry.setName (m : Registry) (n : String) (v : Val) : Registry :=
  match m with
  | [] => [(n, v)]
  | (k, w) :: rest =>
    if k = n then (k, v) :: rest else (k, w) :: Registry.setName rest n v

/-- TVM `Map::erase`: remove the key. -/
def Registry.eraseName (m : Registry) (n : String) : Registry :=
  match m with
  | [] => []
  | (k, w) :: rest =>
    if k = n then Registry.eraseName rest n else (k, w) :: Registry.eraseName rest n

/-! ## Decimal representation

`GetUniqueName` probes `prefix + std::to_string(i)` for `i = 0, 1, 2, ...`.
To prove that the probe always finds a free name within a fuel bound tied to
the registry's size we derive injectivity of `Nat.repr` via a structural
recharacterization `repChars`. -/

/-- The decimal digit list of `n`, most significant first; agrees with the
character list produced by `Nat.toDigits 10`. -/
def repChars (n : Nat) : List Char :=
  if h : n < 10 then [Nat.digitChar n]
  else repChars (n / 10) ++ [Nat.digitChar (n % 10)]
decreasing_by exact Nat.div_lt_self (by omega) (by omega)

/-! ## Unique-name generation (`ScopeManagerNode::GetUniqueName`) -/

/-- Probe loop of `GetUniqueName`: try `p + to_string(i)`, `p + to_string(i+1)`,
... returning the first name with `name2value.count(name) == 0`.  The C++ loop
is unbounded; `fuel` bounds the recursion and `GetUniqueName_total` below shows
that a fuel of `m.length + 1` always suffices. -/
def GetUniqueNameAux (m : Registry) (p : String) : Nat → Nat → Option String
  | 0, _ => none
  | fuel + 1, i =>
    let name := p ++ Nat.repr i
    if Registry.countName m name = 0 then some name
    else GetUniqueNameAux m p fuel (i + 1)

/-- Embedding of `ScopeManagerNode::GetUniqueName`.  The `getD` fallback corresponds to the
unreachable `throw` after the loop; `GetUniqueName_total` proves it is never
taken. -/
def GetUniqueName (m : Registry) (p : String) : String :=
  (GetUniqueNameAux m p (m.length + 1) 0).getD (p ++ "0")

/-! ## The module symbol table (`IRModuleScopeNode`) -/

/-- A `BaseFunc`.  Structural equality and hashing over functions are external
collaborators (spec section 6); we model a function by its structural key, so
Lean equality on `Func` is exactly `StructuralEqual`. -/
structure Func where
  key : Nat
deriving DecidableEq, Repr

/-- A `GlobalVar`; `uid` models object identity (each `GlobalVar(name)`
constructor call yields a distinct object, and `Map<GlobalVar, BaseFunc>` is
keyed by identity). -/
structure GlobalVar where
  nameHint : String
  uid : Nat
deriving DecidableEq, Repr

/-- The `IRModuleScopeNode` payload: `structural_map` (keyed by structural
equality) and `func_map` (keyed by `GlobalVar` identity), plus the allocation
counter for `GlobalVar` identities. -/
structure ModState where
  nextUid : Nat
  structuralMap : List (Func × GlobalVar)
  funcMap : List (GlobalVar × Func)
deriving DecidableEq, Repr

/-- Embedding of `structural_map.find(func)`: first entry whose key is structurally equal. -/
def ModState.findStructural : List (Func × GlobalVar) → Func → Option GlobalVar
  | [], _ => none
  | (f, gv) :: rest, g => if f = g then some gv else ModState.findStructural rest g

/-- Embedding of `IRModuleScopeNode::Add`: return the existing symbol for a structurally
equal function, otherwise allocate a fresh `GlobalVar` from the name hint and
record it in both maps. -/
def ModState.Add (m : ModState) (name : String) (f : Func) : GlobalVar × ModState :=
  match ModState.findStructural m.structuralMap f with
  | some gv => (gv, m)
  | none =>
    let gv : GlobalVar := ⟨name, m.nextUid⟩
    (gv, { nextUid := m.nextUid + 1,
           structuralMap := m.structuralMap ++ [(f, gv)],
           funcMap := m.funcMap ++ [(gv, f)] })

/-- Number of symbol-table entries whose function is structurally equal to
`f`. -/
def ModState.countFor (m : ModState) (f : Func) : Nat :=
  (m.funcMap.filter (fun e => e.2 = f)).length

/-- Well-formedness of a module scope, maintained by `Add` from the empty
table: `func_map` mirrors `structural_map`, structural keys are unique,
symbols are unique, and all allocated uids are below the counter. -/
def ModState.WF (m : ModState) : Prop :=
  m.funcMap = m.structuralMap.map (fun e => (e.2, e.1)) ∧
  (m.structuralMap.map Prod.fst).Nodup ∧
  (m.structuralMap.map Prod.snd).Nodup ∧
  (∀ e ∈ m.structuralMap, e.2.uid < m.nextUid)

/-! ## Scopes and the scope stack (`ScopeManagerNode`) -/

/-- Variant payload of a scope: plain `BaseScope`, a relax block scope
(`DataflowScopeNode` when `isDataflow`, else `NonDataflowScopeNode`), or the
module scope (`IRModuleScopeNode`). -/
inductive ScopePayload where
  | base
  | block (isDataflow : Bool) (bindings : List Binding)
  | moduleRoot (m : ModState)

/-- A scope (`BaseScopeNode` with its subclass payload): the names it
registered, its teardown callbacks (opaque tokens), and the payload. -/
structure Scope where
  vars : List String
  callbacks : List Nat
  payload : ScopePayload

/-- A freshly constructed scope of the given payload (all subclass
constructors start with empty `vars` and `callbacks`). -/
def Scope.fresh (p : ScopePayload) : Scope := ⟨[], [], p⟩

/-- The mutable state of `IRBuilderNode` (which extends `ScopeManagerNode`):
the scope stack (top-first), the name registry, and the builder-lifetime
`id2bind` map.  `cbLog` instruments callback invocation and `nextUid` models
object allocation for `Id` and `Var` identities. -/
structure IRBuilderState where
  scopes : List Scope
  name2value : Registry
  id2bind : List (Id × Expr)
  cbLog : List Nat
  nextUid : Nat

/-- Embedding of `ScopeManagerNode::PushScope`. -/
def PushScope (s : IRBuilderState) (sc : Scope) : IRBuilderState :=
  { s with scopes := sc :: s.scopes }

/-- Erase every name in `names` from the registry, in order (the loop at the
end of `PopScope`). -/
def eraseAllNames (m : Registry) (names : List String) : Registry :=
  names.foldl Registry.eraseName m

/-- Embedding of `ScopeManagerNode::PopScope`: remove the top scope, invoke its callbacks
in registration order (modelled by appending the tokens to `cbLog`), erase its
registered names, and return it.  `scopes.back()` on an empty stack is a
caller error (guarded by `CHECK` in `EndBlock`); we model it as `emptyStack`. -/
def PopScope (s : IRBuilderState) : Except Err Scope × IRBuilderState :=
  match s.scopes with
  | [] => (.error .emptyStack, s)
  | sc :: rest =>
    (.ok sc,
     { s with scopes := rest,
              cbLog := s.cbLog ++ sc.callbacks,
              name2value := eraseAllNames s.name2value sc.vars })

/-- Embedding of `ScopeManagerNode::AddVars` applied, as at every call site, to the current
top scope: fatal `DuplicateNameError` if the name is live anywhere, otherwise
register it in `name2value` and record ownership in the scope. -/
def AddVars (s : IRBuilderState) (name : String) (v : Val) : Except Err Unit × IRBuilderState :=
  match s.scopes with
  | [] => (.error .emptyStack, s)
  | sc :: rest =>
    if Registry.countName s.name2value name ≠ 0 then (.error .duplicateName, s)
    else (.ok (),
          { s with name2value := Registry.setName s.name2value name v,
                   scopes := { sc with vars := sc.vars ++ [name] } :: rest })

/-- Embedding of `BaseScopeNode::AddCallback` on the current top scope. -/
def AddCallback (s : IRBuilderState) (c : Nat) : Except Err Unit × IRBuilderState :=
  match s.scopes with
  | [] => (.error .emptyStack, s)
  | sc :: rest =>
    (.ok (), { s with scopes := { sc with callbacks := sc.callbacks ++ [c] } :: rest })

/-! ## Generic scope-stack operation sequences (for the push/pop properties) -/

/-- Operations a client can perform against the generic scope manager. -/
inductive SOp where
  | push
  | pop
  | addVar (name : String) (v : Val)
  | addCallback (c : Nat)

/-- One step of the generic scope manager. -/
def stepS (s : IRBuilderState) : SOp → Except Err Unit × IRBuilderState
  | .push => (.ok (), PushScope s (Scope.fresh .base))
  | .pop =>
    match PopScope s with
    | (.ok _, s1) => (.ok (), s1)
    | (.error e, s1) => (.error e, s1)
  | .addVar n v => AddVars s n v
  | .addCallback c => AddCallback s c

/-- Run a sequence of scope operations; a fatal error aborts the run and
leaves the state at the point of abort. -/
def runS (s : IRBuilderState) : List SOp → Except Err Unit × IRBuilderState
  | [] => (.ok (), s)
  | op :: ops =>
    match stepS s op with
    | (.ok _, s1) => runS s1 ops
    | (.error e, s1) => (.error e, s1)

/-- Sequences whose pushes and pops are fully matched (Dyck words over
`push`/`pop`, with registrations interleaved freely). -/
inductive Balanced : List SOp → Prop
  | nil : Balanced []
  | reg (n : String) (v : Val) (ops : List SOp) :
      Balanced ops → Balanced (SOp.addVar n v :: ops)
  | cb (c : Nat) (ops : List SOp) :
      Balanced ops → Balanced (SOp.addCallback c :: ops)
  | wrap (inner rest : List SOp) :
      Balanced inner → Balanced rest →
      Balanced (SOp.push :: (inner ++ SOp.pop :: rest))

/-! ## The IR builder (`IRBuilderNode`) -/

/-- The global operator attribute registry (external collaborator): per-op
`FInferShape` and `FInferType` entries.  The registered functions receive the
call expression (the diagnostic context they also receive is opaque to this
core and omitted). -/
structure OpRegistry where
  fInferShape : String → Option (Expr → Option Expr)
  fInferType : String → Option (Expr → Ty)

/-- Embedding of `InferShape`: reuse a cached `shape_` verbatim; otherwise consult the
operator registry when the callee is an `OpNode`; otherwise nothing. -/
def InferShape (reg : OpRegistry) (c : Expr) : Option Expr :=
  match c with
  | .call callee _ sh _ =>
    match sh with
    | some s0 => some s0
    | none =>
      match callee with
      | .opE opName =>
        match reg.fInferShape opName with
        | some f => f c
        | none => none
      | _ => none
  | _ => none

/-- Embedding of `InferType`: reuse a cached `checked_type_` verbatim; otherwise consult
the registry; otherwise the undefined `Type()` (modelled as `none`). -/
def InferType (reg : OpRegistry) (c : Expr) : Option Ty :=
  match c with
  | .call callee _ _ ty =>
    match ty with
    | some t0 => some t0
    | none =>
      match callee with
      | .opE opName =>
        match reg.fInferType opName with
        | some f => some (f c)
        | none => none
      | _ => none
  | _ => none

/-- Embedding of `Map<Id, Expr>::Set`: replace in place if present, append otherwise. -/
def idSet (m : List (Id × Expr)) (i : Id) (e : Expr) : List (Id × Expr) :=
  match m with
  | [] => [(i, e)]
  | (k, w) :: rest => if k = i then (k, e) :: rest else (k, w) :: idSet rest i e

/-- Embedding of `Map<Id, Expr>::find`. -/
def idLookup (m : List (Id × Expr)) (i : Id) : Option Expr :=
  match m with
  | [] => none
  | (k, w) :: rest => if k = i then some w else idLookup rest i

/-- Embedding of `IRBuilderNode::LookupBinding`: fatal when the identity has no recorded
defining expression. -/
def LookupBinding (s : IRBuilderState) (i : Id) : Except Err Expr :=
  match idLookup s.id2bind i with
  | some e => .ok e
  | none => .error .unboundVar

/-- Embedding of `IRBuilderNode::BeginDataflowBlock`. -/
def BeginDataflowBlock (s : IRBuilderState) : IRBuilderState :=
  PushScope s (Scope.fresh (.block true []))

/-- Embedding of `IRBuilderNode::BeginBindingBlock`. -/
def BeginBindingBlock (s : IRBuilderState) : IRBuilderState :=
  PushScope s (Scope.fresh (.block false []))

/-- Embedding of `IRBuilderNode::EndBlock`: pop the current scope and materialize its
bindings as a `DataflowBlock` or plain `BindingBlock` (returned here as the
pair of the dataflow flag and the binding list).  Note the defensive
`ICHECK` against a non-block scope fires after the pop already ran. -/
def EndBlock (s : IRBuilderState) : Except Err (Bool × List Binding) × IRBuilderState :=
  match s.scopes with
  | [] => (.error .emptyStack, s)
  | _ :: _ =>
    match PopScope s with
    | (.ok sc, s1) =>
      match sc.payload with
      | .block df bnds => (.ok (df, bnds), s1)
      | _ => (.error .invalidScope, s1)
    | (.error e, s1) => (.error e, s1)

/-- Embedding of `IRBuilderNode::Emit(const VarBinding&)`: in a dataflow scope the bound
var must be a `DataflowVar` (`ScopeDisciplineError` otherwise); in a
non-dataflow scope any var is accepted; then the binding is appended and
`id2bind` updated. -/
def Emit (s : IRBuilderState) (b : VB) : Except Err VarN × IRBuilderState :=
  match s.scopes with
  | [] => (.error .emptyStack, s)
  | sc :: rest =>
    match sc.payload with
    | .block true bnds =>
      if b.var.isDataflow then
        (.ok b.var,
         { s with
             scopes := { sc with payload := .block true (bnds ++ [.varBinding b.var b.value]) }
               :: rest,
             id2bind := idSet s.id2bind b.var.vid b.value })
      else (.error .scopeDiscipline, s)
    | .block false bnds =>
      (.ok b.var,
       { s with
           scopes := { sc with payload := .block false (bnds ++ [.varBinding b.var b.value]) }
             :: rest,
           id2bind := idSet s.id2bind b.var.vid b.value })
    | _ => (.error .invalidScope, s)

/-- Embedding of `IRBuilderNode::EmitOutput(const VarBinding&)`: only legal in a dataflow
scope, and the `ICHECK` in the source requires the bound var to be a
`DataflowVar`; then the binding is appended and `id2bind` updated. -/
def EmitOutput (s : IRBuilderState) (b : VB) : Except Err VarN × IRBuilderState :=
  match s.scopes with
  | [] => (.error .emptyStack, s)
  | sc :: rest =>
    match sc.payload with
    | .block true bnds =>
      if b.var.isDataflow then
        (.ok b.var,
         { s with
             scopes := { sc with payload := .block true (bnds ++ [.varBinding b.var b.value]) }
               :: rest,
             id2bind := idSet s.id2bind b.var.vid b.value })
      else (.error .scopeDiscipline, s)
    | _ => (.error .invalidScope, s)

/-- Embedding of `IRBuilderNode::EmitMatchShape(const MatchShape&)`: in a dataflow scope
the var must be local, in a non-dataflow scope it must not be; the binding is
appended and, deliberately, `id2bind` is NOT updated (the update is commented
out in the source). -/
def EmitMatchShape (s : IRBuilderState) (b : MS) : Except Err VarN × IRBuilderState :=
  match s.scopes with
  | [] => (.error .emptyStack, s)
  | sc :: rest =>
    match sc.payload with
    | .block true bnds =>
      if b.var.isDataflow then
        (.ok b.var,
         { s with
             scopes :=
               { sc with payload := .block true (bnds ++ [.matchShape b.value b.pattern b.var]) }
                 :: rest })
      else (.error .scopeDiscipline, s)
    | .block false bnds =>
      if b.var.isDataflow then (.error .scopeDiscipline, s)
      else
        (.ok b.var,
         { s with
             scopes :=
               { sc with payload := .block false (bnds ++ [.matchShape b.value b.pattern b.var]) }
                 :: rest })
    | _ => (.error .invalidScope, s)

/-- Embedding of `CreateScopedVar`: allocate a fresh local (`DataflowVar`, prefix `lv`) or
global (`Var`, prefix `gv`) variable according to the current scope kind, with
no shape/type annotations. -/
def CreateScopedVar (s : IRBuilderState) (hint : Option String) :
    Except Err VarN × IRBuilderState :=
  match s.scopes with
  | [] => (.error .emptyStack, s)
  | sc :: _ =>
    match sc.payload with
    | .block true _ =>
      (.ok ⟨⟨GetUniqueName s.name2value (hint.getD "lv"), s.nextUid⟩, true, none, none⟩,
       { s with nextUid := s.nextUid + 1 })
    | .block false _ =>
      (.ok ⟨⟨GetUniqueName s.name2value (hint.getD "gv"), s.nextUid⟩, false, none, none⟩,
       { s with nextUid := s.nextUid + 1 })
    | _ => (.error .invalidScope, s)

/-- Embedding of `CreateVarBinding`: populate the bound var's shape/type from the
expression.  For a call, the inferred results are written to the var and to a
copy of the call node, but the binding records the original expression (the
updated copy is discarded by the source).  For a tuple projection the operand
must be a variable (fatal `ICHECK` otherwise); its shape and type propagate
independently when they are statically tuples, with bounds-checked field
access. -/
def CreateVarBinding (reg : OpRegistry) (var : VarN) (expr : Expr) : Except Err VB :=
  match expr with
  | .call _ _ _ _ =>
    .ok ⟨{ var with shapeAnn := InferShape reg expr, tyAnn := InferType reg expr }, expr⟩
  | .varE _ _ vsh vty =>
    .ok ⟨{ var with shapeAnn := vsh, tyAnn := vty }, expr⟩
  | .tupleGetItem tup i _ _ =>
    match tup with
    | .varE _ _ vsh vty =>
      match
        (match vsh with
         | some (.tupleE fields _ _) =>
           match fields.get? i with
           | some fi => Except.ok (some fi)
           | none => Except.error Err.indexOutOfBounds
         | _ => Except.ok var.shapeAnn : Except Err (Option Expr)) with
      | .error e => .error e
      | .ok newSh =>
        match
          (match vty with
           | some (.tuple tys) =>
             match tys.get? i with
             | some ti => Except.ok (some ti)
             | none => Except.error Err.indexOutOfBounds
           | _ => Except.ok var.tyAnn : Except Err (Option Ty)) with
        | .error e => .error e
        | .ok newTy => .ok ⟨{ var with shapeAnn := newSh, tyAnn := newTy }, expr⟩
    | _ => .error .tupleFieldType
  | _ => .ok ⟨var, expr⟩

/-- Embedding of `IRBuilderNode::Emit(const Expr&, name_hint)`: fresh scoped var, shape and
type propagation, then the binding-level `Emit`. -/
def EmitExpr (reg : OpRegistry) (s : IRBuilderState) (expr : Expr) (hint : Option String) :
    Except Err VarN × IRBuilderState :=
  match CreateScopedVar s hint with
  | (.error e, s1) => (.error e, s1)
  | (.ok var, s1) =>
    match CreateVarBinding reg var expr with
    | .error e => (.error e, s1)
    | .ok vb => Emit s1 vb

/-- Embedding of `IRBuilderNode::EmitMatchShape(value, pattern, name_hint)`: fresh scoped
var; a shape-typed value binds a shape-typed var with no tensor shape; a
tensor-typed value binds a var with shape `pattern` and tensor type of rank
`pattern.size()` and the original dtype; any other static type is fatal. -/
def EmitMatchShapeExpr (s : IRBuilderState) (value : Expr) (pattern : List PrimE)
    (hint : Option String) : Except Err VarN × IRBuilderState :=
  match CreateScopedVar s hint with
  | (.error e, s1) => (.error e, s1)
  | (.ok var, s1) =>
    match Expr.tyAnnOf value with
    | none => (.error .typeUnchecked, s1)
    | some ty =>
      match ty with
      | .shape =>
        EmitMatchShape s1 ⟨value, pattern, { var with tyAnn := some .shape }⟩
      | .dynTensor _ dt =>
        EmitMatchShape s1
          ⟨value, pattern,
           { var with shapeAnn := some (.shapeExprE pattern),
                      tyAnn := some (.dynTensor pattern.length dt) }⟩
      | _ => (.error .typeMismatch, s1)

/-- Embedding of `IRBuilderNode::EmitOutput(const Expr&, name_hint)`: in a dataflow scope,
construct a fresh global (non-dataflow) `Var` named from the enclosing naming
scope and delegate to `Emit` on the created binding; any other scope is
fatal. -/
def EmitOutputExpr (reg : OpRegistry) (s : IRBuilderState) (output : Expr)
    (hint : Option String) : Except Err VarN × IRBuilderState :=
  match s.scopes with
  | [] => (.error .emptyStack, s)
  | sc :: _ =>
    match sc.payload with
    | .block true _ =>
      let var : VarN :=
        ⟨⟨GetUniqueName s.name2value (hint.getD "gv"), s.nextUid⟩, false, none, none⟩
      let s1 := { s with nextUid := s.nextUid + 1 }
      match CreateVarBinding reg var output with
      | .error e => (.error e, s1)
      | .ok vb => Emit s1 vb
    | _ => (.error .invalidScope, s)

/-! ## Builder operation sequences (for the lookup-binding property) -/

/-- Operations a client can perform against the IR builder. -/
inductive BOp where
  | beginDataflow
  | beginBinding
  | endBlock
  | emit (b : VB)
  | emitOutput (b : VB)
  | emitMatchShape (b : MS)
  | emitExpr (e : Expr) (hint : Option String)
  | emitOutputExpr (e : Expr) (hint : Option String)
  | emitMatchShapeExpr (v : Expr) (pat : List PrimE) (hint : Option String)

/-- Result of one builder step. -/
inductive StepOut where
  | unitOut
  | varOut (v : VarN)
  | blockOut (isDataflow : Bool) (bindings : List Binding)

/-- One step of the IR builder. -/
def stepB (reg : OpRegistry) (s : IRBuilderState) : BOp → Except Err StepOut × IRBuilderState
  | .beginDataflow => (.ok .unitOut, BeginDataflowBlock s)
  | .beginBinding => (.ok .unitOut, BeginBindingBlock s)
  | .endBlock =>
    match EndBlock s with
    | (.ok (df, bnds), s1) => (.ok (.blockOut df bnds), s1)
    | (.error e, s1) => (.error e, s1)
  | .emit b =>
    match Emit s b with
    | (.ok v, s1) => (.ok (.varOut v), s1)
    | (.error e, s1) => (.error e, s1)
  | .emitOutput b =>
    match EmitOutput s b with
    | (.ok v, s1) => (.ok (.varOut v), s1)
    | (.error e, s1) => (.error e, s1)
  | .emitMatchShape b =>
    match EmitMatchShape s b with
    | (.ok v, s1) => (.ok (.varOut v), s1)
    | (.error e, s1) => (.error e, s1)
  | .emitExpr e hint =>
    match EmitExpr reg s e hint with
    | (.ok v, s1) => (.ok (.varOut v), s1)
    | (.error er, s1) => (.error er, s1)
  | .emitOutputExpr e hint =>
    match EmitOutputExpr reg s e hint with
    | (.ok v, s1) => (.ok (.varOut v), s1)
    | (.error er, s1) => (.error er, s1)
  | .emitMatchShapeExpr v pat hint =>
    match EmitMatchShapeExpr s v pat hint with
    | (.ok w, s1) => (.ok (.varOut w), s1)
    | (.error er, s1) => (.error er, s1)

/-- Identities recorded into `id2bind` by one step: exactly the var returned
by a successful `Emit`/`EmitOutput` (in either raw or convenience form);
`EmitMatchShape` and the scope operations record nothing. -/
def recordedOf : BOp → Except Err StepOut → List Id
  | .emit _, .ok (.varOut v) => [v.vid]
  | .emitOutput _, .ok (.varOut v) => [v.vid]
  | .emitExpr _ _, .ok (.varOut v) => [v.vid]
  | .emitOutputExpr _ _, .ok (.varOut v) => [v.vid]
  | _, _ => []

/-- Run a sequence of builder operations, collecting the identities recorded
by `emit` / `emit_output` steps; a fatal error aborts the run. -/
def runB (reg : OpRegistry) (s : IRBuilderState) : List BOp → IRBuilderState × List Id
  | [] => (s, [])
  | op :: ops =>
    match stepB reg s op with
    | (.ok out, s1) =>
      let r := runB reg s1 ops
      (r.1, recordedOf op (.ok out) ++ r.2)
    | (.error _, s1) => (s1, [])

/-! ## Concrete sample states and inputs used by the closed witnesses -/

/-- A builder state with nothing on the stack and nothing recorded. -/
def initState : IRBuilderState := ⟨[], [], [], [], 0⟩

/-- A sample balanced scope-operation sequence: register one name, then one
callback. -/
def c8Inner : List SOp := [SOp.addVar "a" 5, SOp.addCallback 7]

/-- A builder state whose only scope is an empty dataflow block. -/
def dfState : IRBuilderState := ⟨[Scope.fresh (.block true [])], [], [], [], 0⟩

/-- A builder state whose only scope is an empty non-dataflow block. -/
def ndfState : IRBuilderState := ⟨[Scope.fresh (.block false [])], [], [], [], 0⟩

/-- A sample global (non-dataflow) variable. -/
def gvar : VarN := ⟨⟨"gv0", 0⟩, false, none, none⟩

/-- A sample local (dataflow) variable. -/
def lvar : VarN := ⟨⟨"lv0", 0⟩, true, none, none⟩

/-- A sample binding of a global variable. -/
def vbG : VB := ⟨gvar, .otherE 0 none none⟩

/-- A sample binding of a local variable. -/
def vbL : VB := ⟨lvar, .otherE 0 none none⟩

/-- A sample match-shape binding of a local variable. -/
def msL : MS := ⟨.otherE 2 none (some (.dynTensor 2 "float32")), ["n", "m"], lvar⟩

/-- A sample operator registry with shape/type inference registered for the
single operator `myop`. -/
def opRegSample : OpRegistry :=
  ⟨fun n => if n = "myop" then some (fun _ => some (.shapeExprE ["n"])) else none,
   fun n => if n = "myop" then some (fun _ => .dynTensor 1 "float32") else none⟩

/-- A call to `myop` with no cached shape or type. -/
def callSample : Expr := .call (.opE "myop") [] none none

/-- A tuple projection whose operand is a tuple literal, not a variable. -/
def tgiBad : Expr := .tupleGetItem (.tupleE [] none none) 0 none none

/-- A value of abstract shape type. -/
def shapeValue : Expr := .otherE 1 none (some .shape)

/-- A value of tensor type (rank 2, dtype f32). -/
def tensorValue : Expr := .otherE 2 none (some (.dynTensor 2 "float32"))

/-- A value of tuple type (neither shape- nor tensor-typed). -/
def tupleValue : Expr := .otherE 3 none (some (.tuple []))

/-! # Theorems

First, the decimal-representation facts backing `GetUniqueName`. -/

theorem repChars_eq_small {n : Nat} (h : n < 10) : repChars n = [Nat.digitChar n] := by
  rw [repChars]
  rw [dif_pos h]

theorem repChars_eq_large {n : Nat} (h : ¬ n < 10) :
    repChars n = repChars (n / 10) ++ [Nat.digitChar (n % 10)] := by
  conv_lhs => rw [repChars]
  rw [dif_neg h]

theorem repChars_ne_nil (n : Nat) : repChars n ≠ [] := by
  by_cases h : n < 10
  · rw [repChars_eq_small h]; simp
  · rw [repChars_eq_large h]; simp

theorem toDigitsCore_eq_repChars (fuel n : Nat) (ds : List Char)
    (hfuel : n < 10 ^ fuel) (hpos : 0 < fuel) :
    Nat.toDigitsCore 10 fuel n ds = repChars n ++ ds := by
  induction fuel generalizing n ds with
  | zero => omega
  | succ f ih =>
    unfold Nat.toDigitsCore
    by_cases h10 : n < 10
    · have hdiv : n / 10 = 0 := Nat.div_eq_of_lt h10
      rw [repChars_eq_small h10]
      simp [hdiv, Nat.mod_eq_of_lt h10]
    · have hdiv : ¬ n / 10 = 0 := by
        have h1 : 10 ≤ n := Nat.le_of_not_lt h10
        have h2 : 1 ≤ n / 10 := (Nat.one_le_div_iff (by omega)).mpr h1
        omega
      have hfpos : 0 < f := by
        rcases Nat.eq_zero_or_pos f with hf | hf
        · subst hf; simp [pow_succ, pow_zero] at hfuel; omega
        · exact hf
      have hlt : n / 10 < 10 ^ f := by
        rw [Nat.div_lt_iff_lt_mul (by omega : (0 : Nat) < 10)]
        calc n < 10 ^ (f + 1) := hfuel
        _ = 10 ^ f * 10 := pow_succ 10 f
      rw [repChars_eq_large h10]
      simp only [hdiv, if_false]
      rw [ih (n / 10) (Nat.digitChar (n % 10) :: ds) hlt hfpos]
      simp

theorem repr_eq_repChars (n : Nat) : Nat.repr n = (repChars n).asString := by
  have h : n < 10 ^ (n + 1) := by
    calc n < 10 ^ n := Nat.lt_pow_self (by omega) n
    _ ≤ 10 ^ (n + 1) := Nat.pow_le_pow_right (by omega) (Nat.le_succ n)
  simp [Nat.repr, Nat.toDigits, toDigitsCore_eq_repChars (n + 1) n [] h (by omega)]

theorem digitChar_inj_lt10 :
    ∀ a, a < 10 → ∀ b, b < 10 → Nat.digitChar a = Nat.digitChar b → a = b := by
  decide

theorem repChars_inj : ∀ n m, repChars n = repChars m → n = m := by
  intro n
  induction n using Nat.strong_induction_on with
  | _ n ih =>
    intro m h
    by_cases hn : n < 10 <;> by_cases hm : m < 10
    · rw [repChars_eq_small hn, repChars_eq_small hm] at h
      exact digitChar_inj_lt10 n hn m hm (by simpa using h)
    · exfalso
      rw [repChars_eq_small hn, repChars_eq_large hm] at h
      have hlen := congrArg List.length h
      have hne := repChars_ne_nil (m / 10)
      simp [List.length_append] at hlen
      cases hrc : repChars (m / 10) with
      | nil => exact hne hrc
      | cons a l => rw [hrc] at hlen; simp at hlen
    · exfalso
      rw [repChars_eq_large hn, repChars_eq_small hm] at h
      have hlen := congrArg List.length h
      have hne := repChars_ne_nil (n / 10)
      simp [List.length_append] at hlen
      cases hrc : repChars (n / 10) with
      | nil => exact hne hrc
      | cons a l => rw [hrc] at hlen; simp at hlen
    · rw [repChars_eq_large hn, repChars_eq_large hm] at h
      have hsplit := List.append_inj' h (by simp)
      have h1 : n / 10 = m / 10 :=
        ih (n / 10) (Nat.div_lt_self (by omega) (by omega)) (m / 10) hsplit.1
      have h2 : n % 10 = m % 10 := by
        have hlast := hsplit.2
        simp at hlast
        exact digitChar_inj_lt10 (n % 10) (Nat.mod_lt _ (by omega)) (m % 10)
          (Nat.mod_lt _ (by omega)) hlast
      omega

theorem natRepr_inj : ∀ n m : Nat, Nat.repr n = Nat.repr m → n = m := by
  intro n m h
  rw [repr_eq_repChars, repr_eq_repChars] at h
  apply repChars_inj
  have hd := congrArg String.data h
  simpa [List.asString] using hd

theorem appendRepr_inj (p : String) : ∀ i j : Nat, p ++ Nat.repr i = p ++ Nat.repr j → i = j := by
  intro i j h
  apply natRepr_inj
  have hd := congrArg String.data h
  simp only [String.data_append] at hd
  exact String.ext (List.append_cancel_left hd)

theorem lookupName_mem (m : Registry) (n : String) (v : Val)
    (h : Registry.lookupName m n = some v) : n ∈ m.map Prod.fst := by
  induction m with
  | nil => simp [Registry.lookupName] at h
  | cons kv rest ih =>
    rw [Registry.lookupName] at h
    by_cases hk : kv.1 = n
    · simp [hk]
    · rw [if_neg hk] at h
      simp [ih h]

theorem registered_range_bound (m : Registry) (p : String) (k : Nat)
    (h : ∀ j, j < k → Registry.countName m (p ++ Nat.repr j) ≠ 0) : k ≤ m.length := by
  by_contra hk
  push_neg at hk
  have hmem : ∀ j, j < k → (p ++ Nat.repr j) ∈ m.map Prod.fst := by
    intro j hj
    have hj0 := h j hj
    unfold Registry.countName at hj0
    cases hl : Registry.lookupName m (p ++ Nat.repr j) with
    | none => rw [hl] at hj0; simp at hj0
    | some v => exact lookupName_mem m _ v hl
  have hinj : Function.Injective (fun j : Nat => p ++ Nat.repr j) :=
    fun a b hab => appendRepr_inj p a b hab
  have hnodup : ((List.range k).map (fun j => p ++ Nat.repr j)).Nodup :=
    (List.nodup_range (n := k)).map hinj
  have hsub : ((List.range k).map (fun j => p ++ Nat.repr j)) ⊆ m.map Prod.fst := by
    intro x hx
    simp only [List.mem_map, List.mem_range] at hx
    obtain ⟨j, hj, rfl⟩ := hx
    exact hmem j hj
  have hle := (hnodup.subperm hsub).length_le
  simp only [List.length_map, List.length_range] at hle
  omega

theorem GetUniqueNameAux_spec (m : Registry) (p : String) :
    ∀ fuel i k, i ≤ k → k < i + fuel →
    (∀ j, i ≤ j → j < k → Registry.countName m (p ++ Nat.repr j) ≠ 0) →
    Registry.countName m (p ++ Nat.repr k) = 0 →
    GetUniqueNameAux m p fuel i = some (p ++ Nat.repr k) := by
  intro fuel
  induction fuel with
  | zero => intro i k h1 h2; omega
  | succ f ih =>
    intro i k h1 h2 hreg hfree
    rw [GetUniqueNameAux]
    by_cases hi : Registry.countName m (p ++ Nat.repr i) = 0
    · have hik : i = k := by
        by_contra hne
        have hik : i < k := lt_of_le_of_ne h1 hne
        exact hreg i le_rfl hik hi
      subst hik
      simp [hi]
    · have hik : i < k := by
        rcases lt_or_eq_of_le h1 with h | h
        · exact h
        · subst h; exact absurd hfree hi
      simp only [hi, if_false]
      exact ih (i + 1) k hik (by omega) (fun j hj1 hj2 => hreg j (by omega) hj2) hfree

/-- Behaviour of `GetUniqueName`: it returns `p + to_string(k)` for the least
free suffix `k`. -/
theorem GetUniqueName_spec (m : Registry) (p : String) (k : Nat)
    (hmin : ∀ j, j < k → Registry.countName m (p ++ Nat.repr j) ≠ 0)
    (hfree : Registry.countName m (p ++ Nat.repr k) = 0) :
    GetUniqueName m p = p ++ Nat.repr k := by
  have hk : k ≤ m.length := registered_range_bound m p k hmin
  unfold GetUniqueName
  rw [GetUniqueNameAux_spec m p (m.length + 1) 0 k (Nat.zero_le k) (by omega)
    (fun j _ hj2 => hmin j hj2) hfree]
  rfl

/-- The probe always succeeds within the fuel `m.length + 1`, so the
unreachable-`throw` fallback in `GetUniqueName` is never taken. -/
theorem GetUniqueName_total (m : Registry) (p : String) :
    ∃ k, GetUniqueNameAux m p (m.length + 1) 0 = some (p ++ Nat.repr k) := by
  have hex : ∃ j, Registry.countName m (p ++ Nat.repr j) = 0 := by
    by_contra hall
    push_neg at hall
    have := registered_range_bound m p (m.length + 1) (fun j _ => hall j)
    omega
  classical
  let k := Nat.find hex
  refine ⟨k, ?_⟩
  have hfree : Registry.countName m (p ++ Nat.repr k) = 0 := Nat.find_spec hex
  have hmin : ∀ j, j < k → Registry.countName m (p ++ Nat.repr j) ≠ 0 :=
    fun j hj => Nat.find_min hex hj
  have hk : k ≤ m.length := registered_range_bound m p k hmin
  exact GetUniqueNameAux_spec m p (m.length + 1) 0 k (Nat.zero_le k) (by omega)
    (fun j _ hj2 => hmin j hj2) hfree

/-! ## Registry lemmas -/

theorem lookupName_append (a b : Registry) (n : String) :
    Registry.lookupName (a ++ b) n =
      match Registry.lookupName a n with
      | some v => some v
      | none => Registry.lookupName b n := by
  induction a with
  | nil => simp [Registry.lookupName]
  | cons kv rest ih =>
    by_cases hk : kv.1 = n
    · simp [Registry.lookupName, hk]
    · simp [Registry.lookupName, hk, ih]

theorem setName_eq_append (m : Registry) (n : String) (v : Val)
    (h : Registry.lookupName m n = none) : Registry.setName m n v = m ++ [(n, v)] := by
  induction m with
  | nil => simp [Registry.setName]
  | cons kv rest ih =>
    rw [Registry.lookupName] at h
    by_cases hk : kv.1 = n
    · rw [if_pos hk] at h; exact absurd h (by simp)
    · rw [if_neg hk] at h
      simp [Registry.setName, hk, ih h]

theorem eraseName_append (a b : Registry) (n : String) :
    Registry.eraseName (a ++ b) n = Registry.eraseName a n ++ Registry.eraseName b n := by
  induction a with
  | nil => simp [Registry.eraseName]
  | cons kv rest ih =>
    by_cases hk : kv.1 = n
    · simp [Registry.eraseName, hk, ih]
    · simp [Registry.eraseName, hk, ih]

theorem eraseName_of_lookup_none (m : Registry) (n : String)
    (h : Registry.lookupName m n = none) : Registry.eraseName m n = m := by
  induction m with
  | nil => simp [Registry.eraseName]
  | cons kv rest ih =>
    rw [Registry.lookupName] at h
    by_cases hk : kv.1 = n
    · rw [if_pos hk] at h; exact absurd h (by simp)
    · rw [if_neg hk] at h
      simp [Registry.eraseName, hk, ih h]

theorem lookupName_eq_none_of_not_mem (m : Registry) (n : String)
    (h : n ∉ m.map Prod.fst) : Registry.lookupName m n = none := by
  induction m with
  | nil => simp [Registry.lookupName]
  | cons kv rest ih =>
    simp only [List.map_cons, List.mem_cons] at h
    push_neg at h
    rw [Registry.lookupName, if_neg (fun he => h.1 he.symm)]
    exact ih h.2

theorem countName_eq_zero_iff (m : Registry) (n : String) :
    Registry.countName m n = 0 ↔ Registry.lookupName m n = none := by
  unfold Registry.countName
  cases h : Registry.lookupName m n <;> simp

/-- Erasing, in order, exactly the keys of a freshly appended suffix restores
the original registry. -/
theorem eraseAllNames_restore (nv : List (String × Val)) :
    ∀ (m : Registry),
      (∀ e ∈ nv, Registry.lookupName m e.1 = none) →
      (nv.map Prod.fst).Nodup →
      eraseAllNames (m ++ nv) (nv.map Prod.fst) = m := by
  induction nv with
  | nil => intro m _ _; simp [eraseAllNames]
  | cons e rest ih =>
    intro m hfresh hnodup
    obtain ⟨n, v⟩ := e
    simp only [List.map_cons] at hnodup ⊢
    have hstep : eraseAllNames (m ++ (n, v) :: rest) (n :: rest.map Prod.fst) =
        eraseAllNames (Registry.eraseName (m ++ (n, v) :: rest) n) (rest.map Prod.fst) := rfl
    rw [hstep]
    have h1 : Registry.eraseName (m ++ (n, v) :: rest) n = m ++ rest := by
      rw [eraseName_append]
      have hm : Registry.eraseName m n = m :=
        eraseName_of_lookup_none m n (hfresh (n, v) (by simp))
      have hr : Registry.eraseName ((n, v) :: rest) n = rest := by
        rw [Registry.eraseName, if_pos rfl]
        exact eraseName_of_lookup_none rest n
          (lookupName_eq_none_of_not_mem rest n (by
            intro hmem
            exact (List.nodup_cons.mp hnodup).1 hmem))
      rw [hm, hr]
    rw [h1]
    exact ih m (fun e he => hfresh e (by simp [he])) (List.nodup_cons.mp hnodup).2

/-! ## The balanced-run invariant and scope-pop restoration (C8 support) -/

theorem AddVars_eq (s : IRBuilderState) (sc : Scope) (rest : List Scope)
    (h : s.scopes = sc :: rest) (n : String) (v : Val) :
    AddVars s n v =
      if Registry.countName s.name2value n ≠ 0 then (Except.error Err.duplicateName, s)
      else (Except.ok (),
            { s with name2value := Registry.setName s.name2value n v,
                     scopes := { sc with vars := sc.vars ++ [n] } :: rest }) := by
  rw [AddVars, h]

theorem AddCallback_eq (s : IRBuilderState) (sc : Scope) (rest : List Scope)
    (h : s.scopes = sc :: rest) (c : Nat) :
    AddCallback s c =
      (Except.ok (),
       { s with scopes := { sc with callbacks := sc.callbacks ++ [c] } :: rest }) := by
  rw [AddCallback, h]

theorem PopScope_eq (s : IRBuilderState) (sc : Scope) (rest : List Scope)
    (h : s.scopes = sc :: rest) :
    PopScope s =
      (.ok sc,
       { s with scopes := rest,
                cbLog := s.cbLog ++ sc.callbacks,
                name2value := eraseAllNames s.name2value sc.vars }) := by
  rw [PopScope, h]

theorem runS_append_ok (a : List SOp) :
    ∀ (b : List SOp) (s s' : IRBuilderState),
      runS s (a ++ b) = (.ok (), s') →
      ∃ smid, runS s a = (.ok (), smid) ∧ runS smid b = (.ok (), s') := by
  induction a with
  | nil => intro b s s' h; exact ⟨s, rfl, h⟩
  | cons op rest ih =>
    intro b s s' h
    rw [List.cons_append, runS] at h
    cases hst : stepS s op with
    | mk r s1 =>
      cases r with
      | ok u =>
        rw [hst] at h
        obtain ⟨smid, h1, h2⟩ := ih b s1 s' h
        refine ⟨smid, ?_, h2⟩
        rw [runS, hst]
        exact h1
      | error e => rw [hst] at h; exact absurd h (by simp)

/-- Invariant of a balanced run relative to the current top scope: the stack
below the top is untouched, the top scope gains a (fresh, duplicate-free)
suffix of registered names and a suffix of callbacks, and the registry gains
exactly the corresponding entries. -/
theorem balanced_run (ops : List SOp) (hb : Balanced ops) :
    ∀ (s s' : IRBuilderState) (sc : Scope) (rest : List Scope),
      s.scopes = sc :: rest →
      runS s ops = (.ok (), s') →
      ∃ (nv : List (String × Val)) (ncb : List Nat),
        s'.scopes = { sc with vars := sc.vars ++ nv.map Prod.fst,
                              callbacks := sc.callbacks ++ ncb } :: rest ∧
        s'.name2value = s.name2value ++ nv ∧
        (∀ e ∈ nv, Registry.lookupName s.name2value e.1 = none) ∧
        (nv.map Prod.fst).Nodup := by
  induction hb with
  | nil =>
    intro s s' sc rest hsc hrun
    rw [runS] at hrun
    cases hrun
    refine ⟨[], [], ?_, by simp, by simp, by simp⟩
    cases sc
    simpa using hsc
  | reg n v ops hops ih =>
    intro s s' sc rest hsc hrun
    rw [runS] at hrun
    simp only [stepS] at hrun
    rw [AddVars_eq s sc rest hsc n v] at hrun
    by_cases hc : Registry.countName s.name2value n ≠ 0
    · rw [if_pos hc] at hrun
      simp at hrun
    · rw [if_neg hc] at hrun
      push_neg at hc
      have hlook : Registry.lookupName s.name2value n = none :=
        (countName_eq_zero_iff s.name2value n).mp hc
      set s1 : IRBuilderState :=
        { s with name2value := Registry.setName s.name2value n v,
                 scopes := { sc with vars := sc.vars ++ [n] } :: rest } with hs1
      obtain ⟨nv', ncb', hscope', hreg', hfresh', hnodup'⟩ :=
        ih s1 s' { sc with vars := sc.vars ++ [n] } rest rfl hrun
      have hset : Registry.setName s.name2value n v = s.name2value ++ [(n, v)] :=
        setName_eq_append s.name2value n v hlook
      refine ⟨(n, v) :: nv', ncb', ?_, ?_, ?_, ?_⟩
      · rw [hscope']
        simp [List.append_assoc]
      · rw [hreg']
        show Registry.setName s.name2value n v ++ nv' = s.name2value ++ ((n, v) :: nv')
        rw [hset]
        simp
      · intro e he
        rcases List.mem_cons.mp he with he | he
        · subst he; exact hlook
        · have hfe := hfresh' e he
          show Registry.lookupName s.name2value e.1 = none
          have : Registry.lookupName s1.name2value e.1 = none := hfe
          rw [hs1] at this
          simp only at this
          rw [hset, lookupName_append] at this
          cases hl : Registry.lookupName s.name2value e.1 with
          | none => rfl
          | some w => rw [hl] at this; simp at this
      · simp only [List.map_cons, List.nodup_cons]
        refine ⟨?_, hnodup'⟩
        intro hmem
        obtain ⟨e, he, heq⟩ := List.mem_map.mp hmem
        have hfe := hfresh' e he
        have : Registry.lookupName s1.name2value e.1 = none := hfe
        rw [hs1] at this
        simp only at this
        rw [hset, lookupName_append, heq] at this
        cases hl : Registry.lookupName s.name2value n with
        | none => rw [hl] at this; simp [Registry.lookupName] at this
        | some w => rw [hl] at this; simp at this
  | cb c ops hops ih =>
    intro s s' sc rest hsc hrun
    rw [runS] at hrun
    simp only [stepS] at hrun
    rw [AddCallback_eq s sc rest hsc c] at hrun
    set s1 : IRBuilderState :=
      { s with scopes := { sc with callbacks := sc.callbacks ++ [c] } :: rest } with hs1
    obtain ⟨nv', ncb', hscope', hreg', hfresh', hnodup'⟩ :=
      ih s1 s' { sc with callbacks := sc.callbacks ++ [c] } rest rfl hrun
    refine ⟨nv', c :: ncb', ?_, hreg', hfresh', hnodup'⟩
    rw [hscope']
    simp [List.append_assoc]
  | wrap inner rest' hinner hrest ihinner ihrest =>
    intro s s' sc rest hsc hrun
    rw [runS] at hrun
    simp only [stepS] at hrun
    obtain ⟨smid, hrun1, hrun2⟩ := runS_append_ok inner (SOp.pop :: rest')
      (PushScope s (Scope.fresh .base)) s' hrun
    obtain ⟨nv2, ncb2, hscope2, hreg2, hfresh2, hnodup2⟩ :=
      ihinner (PushScope s (Scope.fresh .base)) smid (Scope.fresh .base) (sc :: rest)
        (by simp [PushScope, hsc]) hrun1
    rw [runS] at hrun2
    simp only [stepS] at hrun2
    rw [PopScope_eq smid _ _ hscope2] at hrun2
    have herase :
        eraseAllNames smid.name2value ((Scope.fresh ScopePayload.base).vars ++ nv2.map Prod.fst)
          = s.name2value := by
      rw [hreg2]
      show eraseAllNames (s.name2value ++ nv2) ([] ++ nv2.map Prod.fst) = s.name2value
      rw [List.nil_append]
      exact eraseAllNames_restore nv2 s.name2value hfresh2 hnodup2
    set s2 : IRBuilderState :=
      { smid with
          scopes := sc :: rest,
          cbLog := smid.cbLog ++ ((Scope.fresh ScopePayload.base).callbacks ++ ncb2),
          name2value :=
            eraseAllNames smid.name2value
              ((Scope.fresh ScopePayload.base).vars ++ nv2.map Prod.fst) } with hs2
    obtain ⟨nv3, ncb3, hscope3, hreg3, hfresh3, hnodup3⟩ :=
      ihrest s2 s' sc rest rfl hrun2
    refine ⟨nv3, ncb3, hscope3, ?_, ?_, hnodup3⟩
    · rw [hreg3, hs2]
      simp only
      rw [herase]
    · intro e he
      have hfe := hfresh3 e he
      rw [hs2] at hfe
      simp only at hfe
      rw [herase] at hfe
      exact hfe

/-- C8: after a matched push/pop pair enclosing any balanced (and successful)
sequence of scope operations, the pop restores the NameRegistry to its state
before the push, restores the scope stack, invokes each of the popped scope's
teardown callbacks exactly once in registration order (appending exactly
`sc.callbacks` to the invocation log), and returns the popped scope with its
payload. -/
theorem PopScope_restores (s : IRBuilderState) (inner : List SOp) (s₁ : IRBuilderState)
    (hb : Balanced inner)
    (hrun : runS (PushScope s (Scope.fresh .base)) inner = (.ok (), s₁)) :
    ∃ sc s₂, PopScope s₁ = (.ok sc, s₂) ∧
      s₂.name2value = s.name2value ∧
      s₂.scopes = s.scopes ∧
      s₂.cbLog = s₁.cbLog ++ sc.callbacks := by
  obtain ⟨nv, ncb, hscope, hreg, hfresh, hnodup⟩ :=
    balanced_run inner hb (PushScope s (Scope.fresh .base)) s₁ (Scope.fresh .base) s.scopes
      (by simp [PushScope]) hrun
  have hpop := PopScope_eq s₁ _ s.scopes hscope
  refine ⟨_, _, hpop, ?_, rfl, rfl⟩
  show eraseAllNames s₁.name2value ((Scope.fresh ScopePayload.base).vars ++ nv.map Prod.fst)
    = s.name2value
  have hreg' : s₁.name2value = s.name2value ++ nv := hreg
  have hfresh' : ∀ e ∈ nv, Registry.lookupName s.name2value e.1 = none := hfresh
  rw [hreg']
  show eraseAllNames (s.name2value ++ nv) ([] ++ nv.map Prod.fst) = s.name2value
  rw [List.nil_append]
  exact eraseAllNames_restore nv s.name2value hfresh' hnodup

/-- Witness for `PopScope_restores` at a concrete input. -/
theorem PopScope_restores_witness :
    ∃ sc s₂,
      PopScope (runS (PushScope initState (Scope.fresh .base)) c8Inner).2 = (.ok sc, s₂) ∧
      s₂.name2value = initState.name2value ∧
      s₂.scopes = initState.scopes ∧
      s₂.cbLog = (runS (PushScope initState (Scope.fresh .base)) c8Inner).2.cbLog
        ++ sc.callbacks :=
  PopScope_restores initState c8Inner _
    (Balanced.reg "a" 5 _ (Balanced.cb 7 _ Balanced.nil)) (by rfl)

/-! ## Module symbol table (C3 support) -/

theorem findStructural_mem (sm : List (Func × GlobalVar)) (g : Func) (gv : GlobalVar)
    (h : ModState.findStructural sm g = some gv) : (g, gv) ∈ sm := by
  induction sm with
  | nil => simp [ModState.findStructural] at h
  | cons e rest ih =>
    obtain ⟨f, w⟩ := e
    rw [ModState.findStructural] at h
    by_cases hf : f = g
    · rw [if_pos hf] at h
      cases h
      simp [hf]
    · rw [if_neg hf] at h
      simp [ih h]

theorem findStructural_eq_none_iff (sm : List (Func × GlobalVar)) (g : Func) :
    ModState.findStructural sm g = none ↔ g ∉ sm.map Prod.fst := by
  induction sm with
  | nil => simp [ModState.findStructural]
  | cons e rest ih =>
    obtain ⟨f, w⟩ := e
    rw [ModState.findStructural]
    by_cases hf : f = g
    · simp [hf]
    · rw [if_neg hf, ih]
      simp only [List.map_cons, List.mem_cons]
      constructor
      · intro h hmem
        rcases hmem with hmem | hmem
        · exact hf hmem.symm
        · exact h hmem
      · intro h hmem
        exact h (Or.inr hmem)

theorem findStructural_append (a b : List (Func × GlobalVar)) (g : Func) :
    ModState.findStructural (a ++ b) g =
      match ModState.findStructural a g with
      | some gv => some gv
      | none => ModState.findStructural b g := by
  induction a with
  | nil => simp [ModState.findStructural]
  | cons e rest ih =>
    obtain ⟨f, w⟩ := e
    by_cases hf : f = g
    · simp [ModState.findStructural, hf]
    · simp [ModState.findStructural, hf, ih]

theorem filter_key_nil (sm : List (Func × GlobalVar)) (f : Func)
    (h : f ∉ sm.map Prod.fst) : sm.filter (fun e => e.1 = f) = [] := by
  induction sm with
  | nil => rfl
  | cons e rest ih =>
    simp only [List.map_cons, List.mem_cons] at h
    push_neg at h
    rw [List.filter_cons]
    simp only [decide_eq_true_eq]
    rw [if_neg (fun he => h.1 he.symm)]
    exact ih h.2

theorem filter_key_length_one (sm : List (Func × GlobalVar)) (f : Func)
    (hnodup : (sm.map Prod.fst).Nodup) (hmem : f ∈ sm.map Prod.fst) :
    (sm.filter (fun e => e.1 = f)).length = 1 := by
  induction sm with
  | nil => simp at hmem
  | cons e rest ih =>
    obtain ⟨k, gv⟩ := e
    simp only [List.map_cons, List.nodup_cons] at hnodup
    simp only [List.map_cons, List.mem_cons] at hmem
    rw [List.filter_cons]
    simp only [decide_eq_true_eq]
    by_cases hk : k = f
    · rw [if_pos hk]
      subst hk
      rw [filter_key_nil rest k hnodup.1]
      simp
    · rw [if_neg hk]
      rcases hmem with hmem | hmem
      · exact absurd hmem.symm hk
      · exact ih hnodup.2 hmem

theorem countFor_eq (m : ModState)
    (h : m.funcMap = m.structuralMap.map (fun e => (e.2, e.1))) (f : Func) :
    m.countFor f = (m.structuralMap.filter (fun e => e.1 = f)).length := by
  unfold ModState.countFor
  rw [h, List.filter_map]
  rw [List.length_map]
  have hp : ((fun e : GlobalVar × Func => decide (e.2 = f)) ∘
      (fun e : Func × GlobalVar => (e.2, e.1))) = (fun e : Func × GlobalVar => decide (e.1 = f)) := by
    funext e
    rfl
  rw [hp]

theorem Add_WF (m : ModState) (n : String) (f : Func) (hwf : m.WF) : (m.Add n f).2.WF := by
  obtain ⟨h1, h2, h3, h4⟩ := hwf
  unfold ModState.Add
  cases hfind : ModState.findStructural m.structuralMap f with
  | some gv => exact ⟨h1, h2, h3, h4⟩
  | none =>
    refine ⟨?_, ?_, ?_, ?_⟩
    · simp only
      rw [h1]
      simp
    · simp only [List.map_append, List.nodup_append]
      refine ⟨h2, by simp, ?_⟩
      intro x hx
      simp only [List.map_cons, List.map_nil, List.mem_singleton]
      intro hxf
      rw [hxf] at hx
      exact (findStructural_eq_none_iff m.structuralMap f).mp hfind hx
    · simp only [List.map_append, List.nodup_append]
      refine ⟨h3, by simp, ?_⟩
      intro x hx
      simp only [List.map_cons, List.map_nil, List.mem_singleton]
      intro hxg
      obtain ⟨e, he, hee⟩ := List.mem_map.mp hx
      have := h4 e he
      rw [hee, hxg] at this
      simp at this
    · intro e he
      simp only [List.mem_append, List.mem_singleton] at he
      rcases he with he | he
      · exact Nat.lt_succ_of_lt (h4 e he)
      · subst he; simp

theorem Add_find_self (m : ModState) (n : String) (f : Func) :
    ModState.findStructural (m.Add n f).2.structuralMap f = some (m.Add n f).1 := by
  unfold ModState.Add
  cases hfind : ModState.findStructural m.structuralMap f with
  | some gv => simpa using hfind
  | none =>
    simp only
    rw [findStructural_append, hfind]
    simp [ModState.findStructural]

theorem Add_preserves_entries (m : ModState) (n : String) (f : Func) :
    ∀ e ∈ m.structuralMap, e ∈ (m.Add n f).2.structuralMap := by
  intro e he
  unfold ModState.Add
  cases hfind : ModState.findStructural m.structuralMap f with
  | some gv => exact he
  | none => simp [he]

theorem Add_nextUid_mono (m : ModState) (n : String) (f : Func) :
    m.nextUid ≤ (m.Add n f).2.nextUid := by
  unfold ModState.Add
  cases hfind : ModState.findStructural m.structuralMap f with
  | some gv => exact le_rfl
  | none => simp

theorem Add_eq_of_find_some (m : ModState) (n : String) (f : Func) (gv : GlobalVar)
    (h : ModState.findStructural m.structuralMap f = some gv) : m.Add n f = (gv, m) := by
  unfold ModState.Add
  rw [h]

theorem Add_eq_of_find_none (m : ModState) (n : String) (f : Func)
    (h : ModState.findStructural m.structuralMap f = none) :
    m.Add n f =
      (⟨n, m.nextUid⟩,
       { nextUid := m.nextUid + 1,
         structuralMap := m.structuralMap ++ [(f, ⟨n, m.nextUid⟩)],
         funcMap := m.funcMap ++ [(⟨n, m.nextUid⟩, f)] }) := by
  unfold ModState.Add
  rw [h]

/-- C3: deduplication behaviour of `IRModuleScopeNode::Add`.  Two calls with
structurally equal functions return the same symbol, leave the table
unchanged by the second call (whatever its name hint), and yield exactly one
entry for that function; two structurally distinct functions receive distinct
symbols and one entry each (two in total from an empty table). -/
theorem Add_dedup (m : ModState) (n₁ n₂ : String) (f g : Func) (hwf : m.WF) :
    ((f = g) →
      (m.Add n₁ f).2.Add n₂ g = ((m.Add n₁ f).1, (m.Add n₁ f).2) ∧
      ((m.Add n₁ f).2.Add n₂ g).2.countFor f = 1 ∧
      (m.funcMap = [] → ((m.Add n₁ f).2.Add n₂ g).2.funcMap.length = 1)) ∧
    ((f ≠ g) →
      ((m.Add n₁ f).2.Add n₂ g).1 ≠ (m.Add n₁ f).1 ∧
      ((m.Add n₁ f).2.Add n₂ g).2.countFor f = 1 ∧
      ((m.Add n₁ f).2.Add n₂ g).2.countFor g = 1 ∧
      (m.funcMap = [] → ((m.Add n₁ f).2.Add n₂ g).2.funcMap.length = 2)) := by
  have hwf1 := Add_WF m n₁ f hwf
  have hfind1 := Add_find_self m n₁ f
  constructor
  · intro hfg
    subst hfg
    have heq : (m.Add n₁ f).2.Add n₂ f = ((m.Add n₁ f).1, (m.Add n₁ f).2) :=
      Add_eq_of_find_some (m.Add n₁ f).2 n₂ f (m.Add n₁ f).1 hfind1
    refine ⟨heq, ?_, ?_⟩
    · rw [heq]
      rw [countFor_eq (m.Add n₁ f).2 hwf1.1 f]
      apply filter_key_length_one _ _ hwf1.2.1
      have hmem := findStructural_mem _ _ _ hfind1
      exact List.mem_map.mpr ⟨(f, (m.Add n₁ f).1), hmem, rfl⟩
    · intro hempty
      have hsm : m.structuralMap = [] := by
        have h1 := hwf.1
        rw [hempty] at h1
        exact (List.map_eq_nil.mp h1.symm)
      have hfindm : ModState.findStructural m.structuralMap f = none := by
        rw [hsm]; rfl
      rw [heq]
      show ((m.Add n₁ f).2.funcMap).length = 1
      rw [Add_eq_of_find_none m n₁ f hfindm]
      simp [hempty]
  · intro hfg
    have hfind2 := Add_find_self (m.Add n₁ f).2 n₂ g
    have hwf2 := Add_WF (m.Add n₁ f).2 n₂ g hwf1
    have hmem1 : (f, (m.Add n₁ f).1) ∈ ((m.Add n₁ f).2.Add n₂ g).2.structuralMap :=
      Add_preserves_entries (m.Add n₁ f).2 n₂ g _ (findStructural_mem _ _ _ hfind1)
    have hmem2 : (g, ((m.Add n₁ f).2.Add n₂ g).1) ∈ ((m.Add n₁ f).2.Add n₂ g).2.structuralMap :=
      findStructural_mem _ _ _ hfind2
    refine ⟨?_, ?_, ?_, ?_⟩
    · intro hgv
      have hinj := List.inj_on_of_nodup_map hwf2.2.2.1
      have hpair := hinj hmem2 hmem1 (by simpa using hgv)
      exact hfg (congrArg Prod.fst hpair).symm
    · rw [countFor_eq _ hwf2.1 f]
      apply filter_key_length_one _ _ hwf2.2.1
      exact List.mem_map.mpr ⟨_, hmem1, rfl⟩
    · rw [countFor_eq _ hwf2.1 g]
      apply filter_key_length_one _ _ hwf2.2.1
      exact List.mem_map.mpr ⟨_, hmem2, rfl⟩
    · intro hempty
      have hsm : m.structuralMap = [] := by
        have h1 := hwf.1
        rw [hempty] at h1
        exact (List.map_eq_nil.mp h1.symm)
      have hfindm : ModState.findStructural m.structuralMap f = none := by
        rw [hsm]; rfl
      have hm1 := Add_eq_of_find_none m n₁ f hfindm
      have hfindg : ModState.findStructural (m.Add n₁ f).2.structuralMap g = none := by
        rw [hm1, hsm]
        simp only [List.nil_append]
        rw [ModState.findStructural, if_neg hfg]
        rfl
      rw [Add_eq_of_find_none (m.Add n₁ f).2 n₂ g hfindg]
      simp only
      rw [hm1]
      simp [hempty]

/-- Witness for `Add_dedup` at concrete inputs: from the empty module, adding
the same function twice yields one entry and the same symbol, and two
distinct functions yield two entries. -/
theorem Add_dedup_witness :
    (((⟨0, [], []⟩ : ModState).Add "fa" ⟨1⟩).2.Add "fb" ⟨1⟩
        = (((⟨0, [], []⟩ : ModState).Add "fa" ⟨1⟩).1,
           ((⟨0, [], []⟩ : ModState).Add "fa" ⟨1⟩).2)) ∧
    ((((⟨0, [], []⟩ : ModState).Add "fa" ⟨1⟩).2.Add "fb" ⟨2⟩).1
        ≠ ((⟨0, [], []⟩ : ModState).Add "fa" ⟨1⟩).1) := by
  have hwf : (⟨0, [], []⟩ : ModState).WF := by
    refine ⟨rfl, ?_, ?_, ?_⟩ <;> simp [ModState.WF]
  constructor
  · exact ((Add_dedup ⟨0, [], []⟩ "fa" "fb" ⟨1⟩ ⟨1⟩ hwf).1 rfl).1
  · exact ((Add_dedup ⟨0, [], []⟩ "fa" "fb" ⟨1⟩ ⟨2⟩ hwf).2 (by simp)).1

/-! ## Shape lemmas for the emit operations -/

theorem idLookup_idSet_ne (m : List (Id × Expr)) (k i : Id) (e : Expr) (h : i ≠ k) :
    idLookup (idSet m k e) i = idLookup m i := by
  induction m with
  | nil =>
    have hstep : idLookup (idSet [] k e) i = if k = i then some e else none := rfl
    rw [hstep, if_neg (fun hh => h hh.symm)]
    rfl
  | cons kv rest ih =>
    by_cases hk : kv.1 = k
    · rw [idSet, if_pos hk, idLookup, idLookup]
      rw [if_neg (by rw [hk]; exact fun hh => h hh.symm)]
      rw [if_neg (by rw [hk]; exact fun hh => h hh.symm)]
    · rw [idSet, if_neg hk, idLookup, idLookup]
      by_cases hki : kv.1 = i
      · rw [if_pos hki, if_pos hki]
      · rw [if_neg hki, if_neg hki, ih]

/-- Every outcome of `Emit`: success returns the bound var, appends, and
records; failure leaves the state untouched. -/
theorem Emit_cases (s : IRBuilderState) (b : VB) :
    (∃ s', Emit s b = (.ok b.var, s') ∧
       s'.id2bind = idSet s.id2bind b.var.vid b.value ∧
       s'.cbLog = s.cbLog ∧ s'.name2value = s.name2value ∧ s'.nextUid = s.nextUid) ∨
    (∃ e, Emit s b = (.error e, s)) := by
  unfold Emit
  split
  · exact Or.inr ⟨_, rfl⟩
  · split
    · split
      · exact Or.inl ⟨_, rfl, rfl, rfl, rfl, rfl⟩
      · exact Or.inr ⟨_, rfl⟩
    · exact Or.inl ⟨_, rfl, rfl, rfl, rfl, rfl⟩
    · exact Or.inr ⟨_, rfl⟩

/-- Every outcome of `EmitOutput`. -/
theorem EmitOutput_cases (s : IRBuilderState) (b : VB) :
    (∃ s', EmitOutput s b = (.ok b.var, s') ∧
       s'.id2bind = idSet s.id2bind b.var.vid b.value) ∨
    (∃ e, EmitOutput s b = (.error e, s)) := by
  unfold EmitOutput
  split
  · exact Or.inr ⟨_, rfl⟩
  · split
    · split
      · exact Or.inl ⟨_, rfl, rfl⟩
      · exact Or.inr ⟨_, rfl⟩
    · exact Or.inr ⟨_, rfl⟩

/-- Every outcome of `EmitMatchShape`: in particular `id2bind` is never
modified. -/
theorem EmitMatchShape_cases (s : IRBuilderState) (b : MS) :
    (∃ s', EmitMatchShape s b = (.ok b.var, s') ∧ s'.id2bind = s.id2bind) ∨
    (∃ e, EmitMatchShape s b = (.error e, s)) := by
  unfold EmitMatchShape
  split
  · exact Or.inr ⟨_, rfl⟩
  · split
    · split
      · exact Or.inl ⟨_, rfl, rfl⟩
      · exact Or.inr ⟨_, rfl⟩
    · split
      · exact Or.inr ⟨_, rfl⟩
      · exact Or.inl ⟨_, rfl, rfl⟩
    · exact Or.inr ⟨_, rfl⟩

/-- Embedding of `PopScope` never modifies `id2bind`. -/
theorem PopScope_id2bind (s : IRBuilderState) : (PopScope s).2.id2bind = s.id2bind := by
  unfold PopScope
  split
  · rfl
  · rfl

/-- Embedding of `EndBlock` never modifies `id2bind`. -/
theorem EndBlock_id2bind (s : IRBuilderState) : (EndBlock s).2.id2bind = s.id2bind := by
  unfold EndBlock
  split
  · rfl
  · split
    · rename_i a s1 heq
      have hp := PopScope_id2bind s
      rw [heq] at hp
      split <;> exact hp
    · rename_i e s1 heq
      have hp := PopScope_id2bind s
      rw [heq] at hp
      exact hp

/-- Every outcome of `CreateScopedVar`: the state change is only the
allocation counter, and failure leaves the state untouched. -/
theorem CreateScopedVar_cases (s : IRBuilderState) (hint : Option String) :
    (∃ v s', CreateScopedVar s hint = (.ok v, s') ∧
       s'.id2bind = s.id2bind ∧ s'.scopes = s.scopes ∧ s'.name2value = s.name2value ∧
       v.shapeAnn = none ∧ v.tyAnn = none) ∨
    (∃ e, CreateScopedVar s hint = (.error e, s)) := by
  unfold CreateScopedVar
  split
  · exact Or.inr ⟨_, rfl⟩
  · split
    · exact Or.inl ⟨_, _, rfl, rfl, rfl, rfl, rfl, rfl⟩
    · exact Or.inl ⟨_, _, rfl, rfl, rfl, rfl, rfl, rfl⟩
    · exact Or.inr ⟨_, rfl⟩

/-- Embedding of `CreateScopedVar` never modifies `id2bind`. -/
theorem CreateScopedVar_id2bind (s : IRBuilderState) (hint : Option String) :
    (CreateScopedVar s hint).2.id2bind = s.id2bind := by
  unfold CreateScopedVar
  split
  · rfl
  · split <;> rfl

/-- Every outcome of `EmitExpr` in terms of `id2bind`. -/
theorem EmitExpr_cases (reg : OpRegistry) (s : IRBuilderState) (e : Expr)
    (hint : Option String) :
    (∃ v s' val, EmitExpr reg s e hint = (.ok v, s') ∧
       s'.id2bind = idSet s.id2bind v.vid val) ∨
    (∃ er s', EmitExpr reg s e hint = (.error er, s') ∧ s'.id2bind = s.id2bind) := by
  unfold EmitExpr
  split
  · rename_i er s1 heq
    have hid := CreateScopedVar_id2bind s hint
    rw [heq] at hid
    exact Or.inr ⟨er, s1, rfl, hid⟩
  · rename_i var s1 heq
    have hid := CreateScopedVar_id2bind s hint
    rw [heq] at hid
    split
    · rename_i er hcvb
      exact Or.inr ⟨er, s1, rfl, hid⟩
    · rename_i vb hcvb
      rcases Emit_cases s1 vb with ⟨s2, he, hid2, _, _, _⟩ | ⟨er, he⟩
      · rw [he]
        exact Or.inl ⟨vb.var, s2, vb.value, rfl, by rw [hid2, hid]⟩
      · rw [he]
        exact Or.inr ⟨er, s1, rfl, hid⟩

/-- Every outcome of `EmitOutputExpr` in terms of `id2bind`. -/
theorem EmitOutputExpr_cases (reg : OpRegistry) (s : IRBuilderState) (e : Expr)
    (hint : Option String) :
    (∃ v s' val, EmitOutputExpr reg s e hint = (.ok v, s') ∧
       s'.id2bind = idSet s.id2bind v.vid val) ∨
    (∃ er s', EmitOutputExpr reg s e hint = (.error er, s') ∧ s'.id2bind = s.id2bind) := by
  unfold EmitOutputExpr
  split
  · exact Or.inr ⟨_, _, rfl, rfl⟩
  · split
    · dsimp only
      split
      · exact Or.inr ⟨_, _, rfl, rfl⟩
      · rename_i vb hcvb
        rcases Emit_cases _ vb with ⟨s2, he, hid2, _, _, _⟩ | ⟨er, he⟩
        · rw [he]
          exact Or.inl ⟨vb.var, s2, vb.value, rfl, by rw [hid2]⟩
        · rw [he]
          exact Or.inr ⟨er, _, rfl, rfl⟩
    · exact Or.inr ⟨_, _, rfl, rfl⟩

/-- Every outcome of `EmitMatchShapeExpr` in terms of `id2bind`: it is never
modified. -/
theorem EmitMatchShapeExpr_cases (s : IRBuilderState) (v : Expr) (pat : List PrimE)
    (hint : Option String) :
    (∃ w s', EmitMatchShapeExpr s v pat hint = (.ok w, s') ∧ s'.id2bind = s.id2bind) ∨
    (∃ er s', EmitMatchShapeExpr s v pat hint = (.error er, s') ∧ s'.id2bind = s.id2bind) := by
  unfold EmitMatchShapeExpr
  split
  · rename_i er s1 heq
    have hid := CreateScopedVar_id2bind s hint
    rw [heq] at hid
    exact Or.inr ⟨er, s1, rfl, hid⟩
  · rename_i var s1 heq
    have hid := CreateScopedVar_id2bind s hint
    rw [heq] at hid
    split
    · exact Or.inr ⟨_, _, rfl, hid⟩
    · rename_i ty hty
      split
      · rcases EmitMatchShape_cases s1 ⟨v, pat, { var with tyAnn := some .shape }⟩ with
          ⟨s2, he, hid2⟩ | ⟨er, he⟩
        · rw [he]
          exact Or.inl ⟨_, s2, rfl, by rw [hid2, hid]⟩
        · rw [he]
          exact Or.inr ⟨er, s1, rfl, hid⟩
      · rename_i r dt
        rcases EmitMatchShape_cases s1
            ⟨v, pat, { var with shapeAnn := some (.shapeExprE pat),
                                tyAnn := some (.dynTensor pat.length dt) }⟩ with
          ⟨s2, he, hid2⟩ | ⟨er, he⟩
        · rw [he]
          exact Or.inl ⟨_, s2, rfl, by rw [hid2, hid]⟩
        · rw [he]
          exact Or.inr ⟨er, s1, rfl, hid⟩
      · exact Or.inr ⟨_, _, rfl, hid⟩

/-! ## Per-scope-kind equations for the emit operations -/

theorem Emit_df_eq (s : IRBuilderState) (sc : Scope) (rest : List Scope) (bnds : List Binding)
    (b : VB) (hsc : s.scopes = sc :: rest) (hp : sc.payload = .block true bnds) :
    Emit s b =
      if b.var.isDataflow then
        (.ok b.var,
         { s with
             scopes := { sc with payload := .block true (bnds ++ [.varBinding b.var b.value]) }
               :: rest,
             id2bind := idSet s.id2bind b.var.vid b.value })
      else (.error .scopeDiscipline, s) := by
  obtain ⟨vars, cbs, payload⟩ := sc
  subst hp
  rw [Emit, hsc]

theorem Emit_ndf_eq (s : IRBuilderState) (sc : Scope) (rest : List Scope) (bnds : List Binding)
    (b : VB) (hsc : s.scopes = sc :: rest) (hp : sc.payload = .block false bnds) :
    Emit s b =
      (.ok b.var,
       { s with
           scopes := { sc with payload := .block false (bnds ++ [.varBinding b.var b.value]) }
             :: rest,
           id2bind := idSet s.id2bind b.var.vid b.value }) := by
  obtain ⟨vars, cbs, payload⟩ := sc
  subst hp
  rw [Emit, hsc]

theorem EmitMatchShape_df_eq (s : IRBuilderState) (sc : Scope) (rest : List Scope)
    (bnds : List Binding) (b : MS) (hsc : s.scopes = sc :: rest)
    (hp : sc.payload = .block true bnds) :
    EmitMatchShape s b =
      if b.var.isDataflow then
        (.ok b.var,
         { s with
             scopes :=
               { sc with payload := .block true (bnds ++ [.matchShape b.value b.pattern b.var]) }
                 :: rest })
      else (.error .scopeDiscipline, s) := by
  obtain ⟨vars, cbs, payload⟩ := sc
  subst hp
  rw [EmitMatchShape, hsc]

theorem EmitMatchShape_ndf_eq (s : IRBuilderState) (sc : Scope) (rest : List Scope)
    (bnds : List Binding) (b : MS) (hsc : s.scopes = sc :: rest)
    (hp : sc.payload = .block false bnds) :
    EmitMatchShape s b =
      if b.var.isDataflow then (.error .scopeDiscipline, s)
      else
        (.ok b.var,
         { s with
             scopes :=
               { sc with payload := .block false (bnds ++ [.matchShape b.value b.pattern b.var]) }
                 :: rest }) := by
  obtain ⟨vars, cbs, payload⟩ := sc
  subst hp
  rw [EmitMatchShape, hsc]

theorem CreateScopedVar_df_eq (s : IRBuilderState) (sc : Scope) (rest : List Scope)
    (bnds : List Binding) (hint : Option String) (hsc : s.scopes = sc :: rest)
    (hp : sc.payload = .block true bnds) :
    CreateScopedVar s hint =
      (.ok ⟨⟨GetUniqueName s.name2value (hint.getD "lv"), s.nextUid⟩, true, none, none⟩,
       { s with nextUid := s.nextUid + 1 }) := by
  obtain ⟨vars, cbs, payload⟩ := sc
  subst hp
  rw [CreateScopedVar, hsc]

theorem CreateScopedVar_ndf_eq (s : IRBuilderState) (sc : Scope) (rest : List Scope)
    (bnds : List Binding) (hint : Option String) (hsc : s.scopes = sc :: rest)
    (hp : sc.payload = .block false bnds) :
    CreateScopedVar s hint =
      (.ok ⟨⟨GetUniqueName s.name2value (hint.getD "gv"), s.nextUid⟩, false, none, none⟩,
       { s with nextUid := s.nextUid + 1 }) := by
  obtain ⟨vars, cbs, payload⟩ := sc
  subst hp
  rw [CreateScopedVar, hsc]

theorem EmitOutput_df_eq (s : IRBuilderState) (sc : Scope) (rest : List Scope)
    (bnds : List Binding) (b : VB) (hsc : s.scopes = sc :: rest)
    (hp : sc.payload = .block true bnds) :
    EmitOutput s b =
      if b.var.isDataflow then
        (.ok b.var,
         { s with
             scopes := { sc with payload := .block true (bnds ++ [.varBinding b.var b.value]) }
               :: rest,
             id2bind := idSet s.id2bind b.var.vid b.value })
      else (.error .scopeDiscipline, s) := by
  obtain ⟨vars, cbs, payload⟩ := sc
  subst hp
  rw [EmitOutput, hsc]

theorem EmitOutputExpr_df_eq (reg : OpRegistry) (s : IRBuilderState) (output : Expr)
    (hint : Option String) (sc : Scope) (rest : List Scope) (bnds : List Binding)
    (hsc : s.scopes = sc :: rest) (hp : sc.payload = .block true bnds) :
    EmitOutputExpr reg s output hint =
      (match CreateVarBinding reg
          ⟨⟨GetUniqueName s.name2value (hint.getD "gv"), s.nextUid⟩, false, none, none⟩ output with
       | .error e => (.error e, { s with nextUid := s.nextUid + 1 })
       | .ok vb => Emit { s with nextUid := s.nextUid + 1 } vb) := by
  obtain ⟨vars, cbs, payload⟩ := sc
  subst hp
  rw [EmitOutputExpr, hsc]

/-! ## Claim theorems -/

/-- C6: `Emit` with a `VarBinding` whose var is global fails with the
scope-discipline error in a Dataflow scope, succeeds in a NonDataflow scope
(appending the binding and recording `id2bind`), and succeeds with a local var
in a Dataflow scope. -/
theorem Emit_locality (s : IRBuilderState) (b : VB) (sc : Scope) (rest : List Scope)
    (bnds : List Binding) (hsc : s.scopes = sc :: rest) :
    (sc.payload = .block true bnds → b.var.isDataflow = false →
       Emit s b = (.error .scopeDiscipline, s)) ∧
    (sc.payload = .block false bnds →
       Emit s b = (.ok b.var,
         { s with
             scopes := { sc with payload := .block false (bnds ++ [.varBinding b.var b.value]) }
               :: rest,
             id2bind := idSet s.id2bind b.var.vid b.value })) ∧
    (sc.payload = .block true bnds → b.var.isDataflow = true →
       Emit s b = (.ok b.var,
         { s with
             scopes := { sc with payload := .block true (bnds ++ [.varBinding b.var b.value]) }
               :: rest,
             id2bind := idSet s.id2bind b.var.vid b.value })) := by
  refine ⟨?_, ?_, ?_⟩
  · intro hp hdf
    rw [Emit_df_eq s sc rest bnds b hsc hp, hdf]
    simp
  · intro hp
    exact Emit_ndf_eq s sc rest bnds b hsc hp
  · intro hp hdf
    rw [Emit_df_eq s sc rest bnds b hsc hp, hdf]
    simp

/-- Witness for `Emit_locality` at concrete inputs. -/
theorem Emit_locality_witness :
    Emit dfState vbG = (.error .scopeDiscipline, dfState) ∧
    (Emit ndfState vbG).1 = .ok gvar ∧
    (Emit dfState vbL).1 = .ok lvar := by
  refine ⟨(Emit_locality dfState vbG _ [] [] rfl).1 rfl rfl, ?_, ?_⟩
  · rw [(Emit_locality ndfState vbG _ [] [] rfl).2.1 rfl]
    rfl
  · rw [(Emit_locality dfState vbL _ [] [] rfl).2.2 rfl rfl]
    rfl

/-- C10: when `Emit`, `EmitOutput` or `EmitMatchShape` fails its scope-kind or
locality check, the builder state is completely unchanged: no binding is
appended anywhere and `id2bind` is untouched. -/
theorem emit_fail_state_unchanged (s : IRBuilderState) (b₁ b₂ : VB) (mb : MS) :
    (∀ e, (Emit s b₁).1 = .error e → (Emit s b₁).2 = s) ∧
    (∀ e, (EmitOutput s b₂).1 = .error e → (EmitOutput s b₂).2 = s) ∧
    (∀ e, (EmitMatchShape s mb).1 = .error e → (EmitMatchShape s mb).2 = s) := by
  refine ⟨?_, ?_, ?_⟩
  · intro e h
    rcases Emit_cases s b₁ with ⟨s2, he, _⟩ | ⟨er, he⟩
    · rw [he] at h
      simp at h
    · rw [he]
  · intro e h
    rcases EmitOutput_cases s b₂ with ⟨s2, he, _⟩ | ⟨er, he⟩
    · rw [he] at h
      simp at h
    · rw [he]
  · intro e h
    rcases EmitMatchShape_cases s mb with ⟨s2, he, _⟩ | ⟨er, he⟩
    · rw [he] at h
      simp at h
    · rw [he]

/-- Witness for `emit_fail_state_unchanged` at a concrete failing input. -/
theorem emit_fail_state_unchanged_witness : (Emit dfState vbG).2 = dfState :=
  (emit_fail_state_unchanged dfState vbG vbG msL).1 Err.scopeDiscipline (by rfl)

/-- C2 (amended): `GetUniqueName` deterministically returns the first name
`prefix + i` (probing `i = 0, 1, 2, ...`) not currently registered.  It does
not itself register the name, so `"lv1"` results from a second call only
after `"lv0"` has been registered in between (as `AddVars` would). -/
theorem freshName_first_free_deterministic :
    (∀ (m : Registry) (p : String) (k : Nat),
        (∀ j, j < k → Registry.countName m (p ++ Nat.repr j) ≠ 0) →
        Registry.countName m (p ++ Nat.repr k) = 0 →
        GetUniqueName m p = p ++ Nat.repr k) ∧
    GetUniqueName [] "lv" = "lv0" ∧
    (∀ v : Val, GetUniqueName (Registry.setName [] "lv0" v) "lv" = "lv1") := by
  refine ⟨GetUniqueName_spec, rfl, ?_⟩
  intro v
  rfl

/-- Witness for `freshName_first_free_deterministic` at a concrete input. -/
theorem freshName_witness :
    GetUniqueName [("lv0", 3)] "lv" = "lv" ++ Nat.repr 1 :=
  freshName_first_free_deterministic.1 [("lv0", 3)] "lv" 1 (by decide) (by decide)

/-- C2 counterexample: `GetUniqueName` is a pure query (`const` in the source,
and no code path in this repository inserts into `name2value`), so two
consecutive calls on the untouched empty registry both return `"lv0"`; the
second does not return `"lv1"` as the claim states. -/
theorem freshName_consecutive_counterexample :
    GetUniqueName [] "lv" = "lv0" ∧ GetUniqueName [] "lv" ≠ "lv1" := by
  exact ⟨rfl, by decide⟩

/-- C1 (code evaluation): in a Dataflow scope the convenience
`EmitOutput(expr, name_hint)` always fails: it builds a fresh non-dataflow
`Var` and delegates to `Emit`, whose dataflow-scope assertion rejects any
non-dataflow var.  The `EmitOutput(VarBinding)` overload requires a local
(dataflow) var and returns that same local var unchanged — not a fresh global
one. -/
theorem EmitOutput_code_bug (reg : OpRegistry) (s : IRBuilderState) (v : VarN)
    (hint : Option String) (sc : Scope) (rest : List Scope) (bnds : List Binding)
    (hsc : s.scopes = sc :: rest) (hp : sc.payload = .block true bnds) :
    (EmitOutputExpr reg s (VarN.toExpr v) hint).1 = .error .scopeDiscipline ∧
    (∀ b : VB, b.var.isDataflow = true → (EmitOutput s b).1 = .ok b.var) := by
  constructor
  · have hcvb : CreateVarBinding reg
        ⟨⟨GetUniqueName s.name2value (hint.getD "gv"), s.nextUid⟩, false, none, none⟩
        (VarN.toExpr v) =
        Except.ok ⟨⟨⟨GetUniqueName s.name2value (hint.getD "gv"), s.nextUid⟩, false,
          v.shapeAnn, v.tyAnn⟩, VarN.toExpr v⟩ := rfl
    have hstep : (match CreateVarBinding reg
          ⟨⟨GetUniqueName s.name2value (hint.getD "gv"), s.nextUid⟩, false, none, none⟩
          (VarN.toExpr v) with
        | .error e => (.error e, { s with nextUid := s.nextUid + 1 })
        | .ok vb => Emit { s with nextUid := s.nextUid + 1 } vb) =
        Emit { s with nextUid := s.nextUid + 1 }
          ⟨⟨⟨GetUniqueName s.name2value (hint.getD "gv"), s.nextUid⟩, false,
            v.shapeAnn, v.tyAnn⟩, VarN.toExpr v⟩ := by
      rw [hcvb]
    rw [EmitOutputExpr_df_eq reg s (VarN.toExpr v) hint sc rest bnds hsc hp, hstep,
      Emit_df_eq { s with nextUid := s.nextUid + 1 } sc rest bnds _ hsc hp]
    simp
  · intro b hdf
    rw [EmitOutput_df_eq s sc rest bnds b hsc hp, hdf]
    simp

/-- Witness for `EmitOutput_code_bug` at concrete inputs. -/
theorem EmitOutput_code_bug_witness :
    (EmitOutputExpr opRegSample dfState (VarN.toExpr lvar) none).1 = .error .scopeDiscipline ∧
    (EmitOutput dfState vbL).1 = .ok lvar := by
  refine ⟨(EmitOutput_code_bug opRegSample dfState lvar none _ [] [] rfl rfl).1, ?_⟩
  exact (EmitOutput_code_bug opRegSample dfState lvar none _ [] [] rfl rfl).2 vbL rfl

/-- C4 (code evaluation): emitting a call to an operator with registered
shape/type inference caches the inferred results on the bound `Var`, but the
call expression recorded in the emitted binding is the original one, with no
cached shape or type (the updated copy of the call node is discarded). -/
theorem EmitExpr_call_drops_cache :
    ∃ v, (EmitExpr opRegSample dfState callSample none).1 = .ok v ∧
      v.shapeAnn = some (.shapeExprE ["n"]) ∧
      v.tyAnn = some (.dynTensor 1 "float32") ∧
      (EmitExpr opRegSample dfState callSample none).2.scopes =
        [{ Scope.fresh (.block true []) with
             payload := .block true [.varBinding v callSample] }] ∧
      callSample.shapeAnnOf = none ∧ callSample.tyAnnOf = none :=
  ⟨_, rfl, rfl, rfl, rfl, rfl, rfl⟩

/-- C5: `EmitMatchShape(value, pattern, name_hint)` refinement rule.  A value
of abstract shape type binds a shape-typed var with no tensor shape; a value
of tensor type binds a var whose shape becomes `pattern` and whose type is a
tensor type of rank `pattern.length` with the original dtype; any other
static type fails with the type-mismatch error.  In the successful cases the
match-shape binding is appended to the current block scope. -/
theorem EmitMatchShapeExpr_refinement (s : IRBuilderState) (value : Expr)
    (pattern : List PrimE) (hint : Option String) (sc : Scope) (rest : List Scope)
    (df : Bool) (bnds : List Binding) (hsc : s.scopes = sc :: rest)
    (hp : sc.payload = .block df bnds) :
    (value.tyAnnOf = some .shape →
       ∃ v, (EmitMatchShapeExpr s value pattern hint).1 = .ok v ∧
         v.tyAnn = some .shape ∧ v.shapeAnn = none ∧
         (EmitMatchShapeExpr s value pattern hint).2.scopes =
           { sc with payload := .block df (bnds ++ [.matchShape value pattern v]) } :: rest) ∧
    (∀ r dt, value.tyAnnOf = some (.dynTensor r dt) →
       ∃ v, (EmitMatchShapeExpr s value pattern hint).1 = .ok v ∧
         v.shapeAnn = some (.shapeExprE pattern) ∧
         v.tyAnn = some (.dynTensor pattern.length dt) ∧
         (EmitMatchShapeExpr s value pattern hint).2.scopes =
           { sc with payload := .block df (bnds ++ [.matchShape value pattern v]) } :: rest) ∧
    (∀ tys, value.tyAnnOf = some (.tuple tys) →
       (EmitMatchShapeExpr s value pattern hint).1 = .error .typeMismatch) := by
  cases df with
  | true =>
    have hC := CreateScopedVar_df_eq s sc rest bnds hint hsc hp
    refine ⟨?_, ?_, ?_⟩
    · intro hty
      have hE : EmitMatchShapeExpr s value pattern hint =
          EmitMatchShape { s with nextUid := s.nextUid + 1 }
            ⟨value, pattern, ⟨⟨GetUniqueName s.name2value (hint.getD "lv"), s.nextUid⟩,
              true, none, some .shape⟩⟩ := by
        rw [EmitMatchShapeExpr, hC, hty]
      have hM := EmitMatchShape_df_eq { s with nextUid := s.nextUid + 1 } sc rest bnds
        ⟨value, pattern, ⟨⟨GetUniqueName s.name2value (hint.getD "lv"), s.nextUid⟩,
          true, none, some .shape⟩⟩ hsc hp
      refine ⟨⟨⟨GetUniqueName s.name2value (hint.getD "lv"), s.nextUid⟩,
        true, none, some .shape⟩, ?_, rfl, rfl, ?_⟩
      · rw [hE, hM]
        rfl
      · rw [hE, hM]
        rfl
    · intro r dt hty
      have hE : EmitMatchShapeExpr s value pattern hint =
          EmitMatchShape { s with nextUid := s.nextUid + 1 }
            ⟨value, pattern, ⟨⟨GetUniqueName s.name2value (hint.getD "lv"), s.nextUid⟩,
              true, some (.shapeExprE pattern), some (.dynTensor pattern.length dt)⟩⟩ := by
        rw [EmitMatchShapeExpr, hC, hty]
      have hM := EmitMatchShape_df_eq { s with nextUid := s.nextUid + 1 } sc rest bnds
        ⟨value, pattern, ⟨⟨GetUniqueName s.name2value (hint.getD "lv"), s.nextUid⟩,
          true, some (.shapeExprE pattern), some (.dynTensor pattern.length dt)⟩⟩ hsc hp
      refine ⟨⟨⟨GetUniqueName s.name2value (hint.getD "lv"), s.nextUid⟩,
        true, some (.shapeExprE pattern), some (.dynTensor pattern.length dt)⟩, ?_, rfl, rfl, ?_⟩
      · rw [hE, hM]
        rfl
      · rw [hE, hM]
        rfl
    · intro tys hty
      have hE : EmitMatchShapeExpr s value pattern hint =
          (.error .typeMismatch, { s with nextUid := s.nextUid + 1 }) := by
        rw [EmitMatchShapeExpr, hC, hty]
      rw [hE]
  | false =>
    have hC := CreateScopedVar_ndf_eq s sc rest bnds hint hsc hp
    refine ⟨?_, ?_, ?_⟩
    · intro hty
      have hE : EmitMatchShapeExpr s value pattern hint =
          EmitMatchShape { s with nextUid := s.nextUid + 1 }
            ⟨value, pattern, ⟨⟨GetUniqueName s.name2value (hint.getD "gv"), s.nextUid⟩,
              false, none, some .shape⟩⟩ := by
        rw [EmitMatchShapeExpr, hC, hty]
      have hM := EmitMatchShape_ndf_eq { s with nextUid := s.nextUid + 1 } sc rest bnds
        ⟨value, pattern, ⟨⟨GetUniqueName s.name2value (hint.getD "gv"), s.nextUid⟩,
          false, none, some .shape⟩⟩ hsc hp
      refine ⟨⟨⟨GetUniqueName s.name2value (hint.getD "gv"), s.nextUid⟩,
        false, none, some .shape⟩, ?_, rfl, rfl, ?_⟩
      · rw [hE, hM]
        rfl
      · rw [hE, hM]
        rfl
    · intro r dt hty
      have hE : EmitMatchShapeExpr s value pattern hint =
          EmitMatchShape { s with nextUid := s.nextUid + 1 }
            ⟨value, pattern, ⟨⟨GetUniqueName s.name2value (hint.getD "gv"), s.nextUid⟩,
              false, some (.shapeExprE pattern), some (.dynTensor pattern.length dt)⟩⟩ := by
        rw [EmitMatchShapeExpr, hC, hty]
      have hM := EmitMatchShape_ndf_eq { s with nextUid := s.nextUid + 1 } sc rest bnds
        ⟨value, pattern, ⟨⟨GetUniqueName s.name2value (hint.getD "gv"), s.nextUid⟩,
          false, some (.shapeExprE pattern), some (.dynTensor pattern.length dt)⟩⟩ hsc hp
      refine ⟨⟨⟨GetUniqueName s.name2value (hint.getD "gv"), s.nextUid⟩,
        false, some (.shapeExprE pattern), some (.dynTensor pattern.length dt)⟩, ?_, rfl, rfl, ?_⟩
      · rw [hE, hM]
        rfl
      · rw [hE, hM]
        rfl
    · intro tys hty
      have hE : EmitMatchShapeExpr s value pattern hint =
          (.error .typeMismatch, { s with nextUid := s.nextUid + 1 }) := by
        rw [EmitMatchShapeExpr, hC, hty]
      rw [hE]

/-- Witness for `EmitMatchShapeExpr_refinement` at concrete inputs. -/
theorem EmitMatchShapeExpr_refinement_witness :
    (∃ v, (EmitMatchShapeExpr dfState shapeValue ["n", "m"] none).1 = .ok v ∧
       v.tyAnn = some .shape ∧ v.shapeAnn = none ∧
       (EmitMatchShapeExpr dfState shapeValue ["n", "m"] none).2.scopes =
         { Scope.fresh (.block true []) with
             payload := .block true ([] ++ [.matchShape shapeValue ["n", "m"] v]) } :: []) ∧
    (∃ v, (EmitMatchShapeExpr dfState tensorValue ["n", "m"] none).1 = .ok v ∧
       v.shapeAnn = some (.shapeExprE ["n", "m"]) ∧
       v.tyAnn = some (.dynTensor (["n", "m"] : List PrimE).length "float32") ∧
       (EmitMatchShapeExpr dfState tensorValue ["n", "m"] none).2.scopes =
         { Scope.fresh (.block true []) with
             payload := .block true ([] ++ [.matchShape tensorValue ["n", "m"] v]) } :: []) ∧
    (EmitMatchShapeExpr dfState tupleValue ["n", "m"] none).1 = .error .typeMismatch := by
  refine ⟨?_, ?_, ?_⟩
  · exact (EmitMatchShapeExpr_refinement dfState shapeValue ["n", "m"] none _ [] true []
      rfl rfl).1 rfl
  · exact (EmitMatchShapeExpr_refinement dfState tensorValue ["n", "m"] none _ [] true []
      rfl rfl).2.1 2 "float32" rfl
  · exact (EmitMatchShapeExpr_refinement dfState tupleValue ["n", "m"] none _ [] true []
      rfl rfl).2.2 [] rfl

/-- If `CreateVarBinding` on the freshly scoped var succeeds with a binding
whose var matches the current scope kind, the convenience `Emit` succeeds and
returns that var. -/
theorem EmitExpr_ok_of_cvb (reg : OpRegistry) (s : IRBuilderState) (sc : Scope)
    (rest : List Scope) (df : Bool) (bnds : List Binding) (e : Expr) (hint : Option String)
    (vb : VB) (hsc : s.scopes = sc :: rest) (hp : sc.payload = .block df bnds)
    (hcvb : CreateVarBinding reg
        ⟨⟨GetUniqueName s.name2value (hint.getD (if df then "lv" else "gv")), s.nextUid⟩,
          df, none, none⟩ e = .ok vb)
    (hdf : vb.var.isDataflow = df) :
    (EmitExpr reg s e hint).1 = .ok vb.var := by
  cases df with
  | true =>
    rw [if_pos rfl] at hcvb
    have hC := CreateScopedVar_df_eq s sc rest bnds hint hsc hp
    have h1 : EmitExpr reg s e hint =
        (match CreateVarBinding reg
            ⟨⟨GetUniqueName s.name2value (hint.getD "lv"), s.nextUid⟩, true, none, none⟩ e with
         | .error er => (.error er, { s with nextUid := s.nextUid + 1 })
         | .ok vb' => Emit { s with nextUid := s.nextUid + 1 } vb') := by
      rw [EmitExpr, hC]
    have h2 : (match CreateVarBinding reg
            ⟨⟨GetUniqueName s.name2value (hint.getD "lv"), s.nextUid⟩, true, none, none⟩ e with
         | .error er => ((.error er : Except Err VarN), { s with nextUid := s.nextUid + 1 })
         | .ok vb' => Emit { s with nextUid := s.nextUid + 1 } vb') =
        Emit { s with nextUid := s.nextUid + 1 } vb := by
      rw [hcvb]
    rw [h1, h2, Emit_df_eq { s with nextUid := s.nextUid + 1 } sc rest bnds vb hsc hp, hdf]
    simp
  | false =>
    rw [if_neg (by simp)] at hcvb
    have hC := CreateScopedVar_ndf_eq s sc rest bnds hint hsc hp
    have h1 : EmitExpr reg s e hint =
        (match CreateVarBinding reg
            ⟨⟨GetUniqueName s.name2value (hint.getD "gv"), s.nextUid⟩, false, none, none⟩ e with
         | .error er => (.error er, { s with nextUid := s.nextUid + 1 })
         | .ok vb' => Emit { s with nextUid := s.nextUid + 1 } vb') := by
      rw [EmitExpr, hC]
    have h2 : (match CreateVarBinding reg
            ⟨⟨GetUniqueName s.name2value (hint.getD "gv"), s.nextUid⟩, false, none, none⟩ e with
         | .error er => ((.error er : Except Err VarN), { s with nextUid := s.nextUid + 1 })
         | .ok vb' => Emit { s with nextUid := s.nextUid + 1 } vb') =
        Emit { s with nextUid := s.nextUid + 1 } vb := by
      rw [hcvb]
    rw [h1, h2, Emit_ndf_eq { s with nextUid := s.nextUid + 1 } sc rest bnds vb hsc hp]

/-- If `CreateVarBinding` on the freshly scoped var fails, the convenience
`Emit` propagates the same error. -/
theorem EmitExpr_err_of_cvb (reg : OpRegistry) (s : IRBuilderState) (sc : Scope)
    (rest : List Scope) (df : Bool) (bnds : List Binding) (e : Expr) (hint : Option String)
    (er : Err) (hsc : s.scopes = sc :: rest) (hp : sc.payload = .block df bnds)
    (hcvb : CreateVarBinding reg
        ⟨⟨GetUniqueName s.name2value (hint.getD (if df then "lv" else "gv")), s.nextUid⟩,
          df, none, none⟩ e = .error er) :
    (EmitExpr reg s e hint).1 = .error er := by
  cases df with
  | true =>
    rw [if_pos rfl] at hcvb
    have hC := CreateScopedVar_df_eq s sc rest bnds hint hsc hp
    have h1 : EmitExpr reg s e hint =
        (match CreateVarBinding reg
            ⟨⟨GetUniqueName s.name2value (hint.getD "lv"), s.nextUid⟩, true, none, none⟩ e with
         | .error er' => (.error er', { s with nextUid := s.nextUid + 1 })
         | .ok vb' => Emit { s with nextUid := s.nextUid + 1 } vb') := by
      rw [EmitExpr, hC]
    rw [h1, hcvb]
  | false =>
    rw [if_neg (by simp)] at hcvb
    have hC := CreateScopedVar_ndf_eq s sc rest bnds hint hsc hp
    have h1 : EmitExpr reg s e hint =
        (match CreateVarBinding reg
            ⟨⟨GetUniqueName s.name2value (hint.getD "gv"), s.nextUid⟩, false, none, none⟩ e with
         | .error er' => (.error er', { s with nextUid := s.nextUid + 1 })
         | .ok vb' => Emit { s with nextUid := s.nextUid + 1 } vb') := by
      rw [EmitExpr, hC]
    rw [h1, hcvb]

/-- C9 (amended): for an emit of a tuple projection at static index `i` in a
block scope: if the operand is a variable whose shape and type are statically
tuples with an `i`-th field, the bound var receives the `i`-th field's shape
and type; the two annotations propagate independently, so a variable operand
with no tuple annotations leaves both unresolved while emit succeeds; a
non-variable operand fails fatally with the tuple-field type error. -/
theorem EmitExpr_tupleGetItem (reg : OpRegistry) (s : IRBuilderState) (sc : Scope)
    (rest : List Scope) (df : Bool) (bnds : List Binding) (i : Nat)
    (sh : Option Expr) (ty : Option Ty) (hint : Option String)
    (hsc : s.scopes = sc :: rest) (hp : sc.payload = .block df bnds) :
    (∀ vid vdf sf shs tys tf fi ti,
       sf.get? i = some fi → tf.get? i = some ti →
       ∃ v, (EmitExpr reg s
           (.tupleGetItem (.varE vid vdf (some (.tupleE sf shs tys)) (some (.tuple tf))) i sh ty)
           hint).1 = .ok v ∧
         v.shapeAnn = some fi ∧ v.tyAnn = some ti) ∧
    (∀ vid vdf vsh vty,
       (∀ fs a b, vsh ≠ some (.tupleE fs a b)) →
       (∀ fs, vty ≠ some (.tuple fs)) →
       ∃ v, (EmitExpr reg s (.tupleGetItem (.varE vid vdf vsh vty) i sh ty) hint).1 = .ok v ∧
         v.shapeAnn = none ∧ v.tyAnn = none) ∧
    (∀ tup, (∀ a b c d, tup ≠ .varE a b c d) →
       (EmitExpr reg s (.tupleGetItem tup i sh ty) hint).1 = .error .tupleFieldType) := by
  refine ⟨?_, ?_, ?_⟩
  · intro vid vdf sf shs tys tf fi ti hfi hti
    have hcvb0 : CreateVarBinding reg
        ⟨⟨GetUniqueName s.name2value (hint.getD (if df then "lv" else "gv")), s.nextUid⟩,
          df, none, none⟩
        (.tupleGetItem (.varE vid vdf (some (.tupleE sf shs tys)) (some (.tuple tf))) i sh ty) =
        (match (match sf.get? i with
                | some fi' => (Except.ok (some fi') : Except Err (Option Expr))
                | none => Except.error Err.indexOutOfBounds) with
         | .error e => Except.error e
         | .ok newSh =>
           match (match tf.get? i with
                  | some ti' => (Except.ok (some ti') : Except Err (Option Ty))
                  | none => Except.error Err.indexOutOfBounds) with
           | .error e => Except.error e
           | .ok newTy =>
             Except.ok
               ⟨{ vid := ⟨GetUniqueName s.name2value (hint.getD (if df then "lv" else "gv")),
                    s.nextUid⟩,
                  isDataflow := df, shapeAnn := newSh, tyAnn := newTy },
                .tupleGetItem (.varE vid vdf (some (.tupleE sf shs tys)) (some (.tuple tf)))
                  i sh ty⟩) := rfl
    rw [hfi, hti] at hcvb0
    have hcvb := hcvb0.trans rfl
    exact ⟨_, EmitExpr_ok_of_cvb reg s sc rest df bnds _ hint _ hsc hp hcvb rfl, rfl, rfl⟩
  · intro vid vdf vsh vty hs ht
    have hshape : (match vsh with
        | some (.tupleE fields a b) =>
          (match fields.get? i with
           | some fi => (Except.ok (some fi) : Except Err (Option Expr))
           | none => Except.error Err.indexOutOfBounds)
        | _ => Except.ok none) = Except.ok (none : Option Expr) := by
      cases vsh with
      | none => rfl
      | some e0 =>
        cases e0 with
        | tupleE fields a b => exact absurd rfl (hs fields a b)
        | varE a b c d => rfl
        | opE a => rfl
        | call a b c d => rfl
        | tupleGetItem a b c d => rfl
        | shapeExprE a => rfl
        | otherE a b c => rfl
    have htype : (match vty with
        | some (.tuple tys') =>
          (match tys'.get? i with
           | some ti => (Except.ok (some ti) : Except Err (Option Ty))
           | none => Except.error Err.indexOutOfBounds)
        | _ => Except.ok none) = Except.ok (none : Option Ty) := by
      cases vty with
      | none => rfl
      | some t0 =>
        cases t0 with
        | tuple tys' => exact absurd rfl (ht tys')
        | shape => rfl
        | dynTensor r d => rfl
    have hcvb0 : CreateVarBinding reg
        ⟨⟨GetUniqueName s.name2value (hint.getD (if df then "lv" else "gv")), s.nextUid⟩,
          df, none, none⟩
        (.tupleGetItem (.varE vid vdf vsh vty) i sh ty) =
        (match (match vsh with
                | some (.tupleE fields a b) =>
                  (match fields.get? i with
                   | some fi => (Except.ok (some fi) : Except Err (Option Expr))
                   | none => Except.error Err.indexOutOfBounds)
                | _ => Except.ok none) with
         | .error e => Except.error e
         | .ok newSh =>
           match (match vty with
                  | some (.tuple tys') =>
                    (match tys'.get? i with
                     | some ti => (Except.ok (some ti) : Except Err (Option Ty))
                     | none => Except.error Err.indexOutOfBounds)
                  | _ => Except.ok none) with
           | .error e => Except.error e
           | .ok newTy =>
             Except.ok
               ⟨{ vid := ⟨GetUniqueName s.name2value (hint.getD (if df then "lv" else "gv")),
                    s.nextUid⟩,
                  isDataflow := df, shapeAnn := newSh, tyAnn := newTy },
                .tupleGetItem (.varE vid vdf vsh vty) i sh ty⟩) := rfl
    rw [hshape, htype] at hcvb0
    have hcvb := hcvb0.trans rfl
    exact ⟨_, EmitExpr_ok_of_cvb reg s sc rest df bnds _ hint _ hsc hp hcvb rfl, rfl, rfl⟩
  · intro tup hnv
    cases tup with
    | varE a b c d => exact absurd rfl (hnv a b c d)
    | opE a => exact EmitExpr_err_of_cvb reg s sc rest df bnds _ hint _ hsc hp rfl
    | call a b c d => exact EmitExpr_err_of_cvb reg s sc rest df bnds _ hint _ hsc hp rfl
    | tupleE a b c => exact EmitExpr_err_of_cvb reg s sc rest df bnds _ hint _ hsc hp rfl
    | tupleGetItem a b c d =>
      exact EmitExpr_err_of_cvb reg s sc rest df bnds _ hint _ hsc hp rfl
    | shapeExprE a => exact EmitExpr_err_of_cvb reg s sc rest df bnds _ hint _ hsc hp rfl
    | otherE a b c => exact EmitExpr_err_of_cvb reg s sc rest df bnds _ hint _ hsc hp rfl

/-- C9 counterexample: emitting a tuple projection whose operand is a tuple
literal (not a variable) fails fatally instead of succeeding with unresolved
shape/type as the claim states. -/
theorem EmitExpr_tupleGetItem_counterexample :
    (EmitExpr opRegSample dfState tgiBad none).1 = .error .tupleFieldType := by
  rfl

/-- Witness for `EmitExpr_tupleGetItem` at concrete inputs. -/
theorem EmitExpr_tupleGetItem_witness :
    (∃ v, (EmitExpr opRegSample dfState
        (.tupleGetItem (.varE ⟨"x", 7⟩ false (some (.tupleE [.shapeExprE ["k"]] none none))
          (some (.tuple [.dynTensor 1 "int32"]))) 0 none none) none).1 = .ok v ∧
       v.shapeAnn = some (.shapeExprE ["k"]) ∧ v.tyAnn = some (.dynTensor 1 "int32")) ∧
    (EmitExpr opRegSample dfState (.tupleGetItem (.opE "o") 0 none none) none).1
      = .error .tupleFieldType := by
  constructor
  · exact (EmitExpr_tupleGetItem opRegSample dfState _ [] true [] 0 none none none
      rfl rfl).1 ⟨"x", 7⟩ false [.shapeExprE ["k"]] none none [.dynTensor 1 "int32"]
      (.shapeExprE ["k"]) (.dynTensor 1 "int32") rfl rfl
  · exact (EmitExpr_tupleGetItem opRegSample dfState _ [] true [] 0 none none none
      rfl rfl).2.2 (.opE "o") (by intro a b c d h; cases h)

/-! ## Lookup-binding support (C7) -/

theorem recordedOf_error (op : BOp) (e : Err) : recordedOf op (.error e) = [] := by
  cases op <;> rfl

/-- One builder step keeps an identity absent from `id2bind` unless the step
is an `emit`/`emit_output` that records exactly that identity. -/
theorem stepB_preserves (reg : OpRegistry) (s : IRBuilderState) (op : BOp) (i : Id)
    (h : idLookup s.id2bind i = none)
    (hrec : i ∉ recordedOf op (stepB reg s op).1) :
    idLookup (stepB reg s op).2.id2bind i = none := by
  cases op with
  | beginDataflow => exact h
  | beginBinding => exact h
  | endBlock =>
    simp only [stepB]
    rcases hE : EndBlock s with ⟨r, s1⟩
    have hid := EndBlock_id2bind s
    rw [hE] at hid
    cases r with
    | ok out =>
      obtain ⟨dfb, bnds⟩ := out
      show idLookup s1.id2bind i = none
      rw [hid]
      exact h
    | error e =>
      show idLookup s1.id2bind i = none
      rw [hid]
      exact h
  | emit b =>
    simp only [stepB] at hrec ⊢
    rcases Emit_cases s b with ⟨s2, he, hid2, _, _, _⟩ | ⟨er, he⟩
    · rw [he] at hrec ⊢
      have hrec' : i ∉ [b.var.vid] := hrec
      have hne : i ≠ b.var.vid := by simpa using hrec'
      show idLookup s2.id2bind i = none
      rw [hid2, idLookup_idSet_ne s.id2bind b.var.vid i b.value hne]
      exact h
    · rw [he]
      exact h
  | emitOutput b =>
    simp only [stepB] at hrec ⊢
    rcases EmitOutput_cases s b with ⟨s2, he, hid2⟩ | ⟨er, he⟩
    · rw [he] at hrec ⊢
      have hrec' : i ∉ [b.var.vid] := hrec
      have hne : i ≠ b.var.vid := by simpa using hrec'
      show idLookup s2.id2bind i = none
      rw [hid2, idLookup_idSet_ne s.id2bind b.var.vid i b.value hne]
      exact h
    · rw [he]
      exact h
  | emitMatchShape b =>
    simp only [stepB]
    rcases EmitMatchShape_cases s b with ⟨s2, he, hid2⟩ | ⟨er, he⟩
    · rw [he]
      show idLookup s2.id2bind i = none
      rw [hid2]
      exact h
    · rw [he]
      exact h
  | emitExpr e hint =>
    simp only [stepB] at hrec ⊢
    rcases EmitExpr_cases reg s e hint with ⟨v, s2, val, he, hid2⟩ | ⟨er, s2, he, hid2⟩
    · rw [he] at hrec ⊢
      have hrec' : i ∉ [v.vid] := hrec
      have hne : i ≠ v.vid := by simpa using hrec'
      show idLookup s2.id2bind i = none
      rw [hid2, idLookup_idSet_ne s.id2bind v.vid i val hne]
      exact h
    · rw [he]
      show idLookup s2.id2bind i = none
      rw [hid2]
      exact h
  | emitOutputExpr e hint =>
    simp only [stepB] at hrec ⊢
    rcases EmitOutputExpr_cases reg s e hint with ⟨v, s2, val, he, hid2⟩ | ⟨er, s2, he, hid2⟩
    · rw [he] at hrec ⊢
      have hrec' : i ∉ [v.vid] := hrec
      have hne : i ≠ v.vid := by simpa using hrec'
      show idLookup s2.id2bind i = none
      rw [hid2, idLookup_idSet_ne s.id2bind v.vid i val hne]
      exact h
    · rw [he]
      show idLookup s2.id2bind i = none
      rw [hid2]
      exact h
  | emitMatchShapeExpr v pat hint =>
    simp only [stepB]
    rcases EmitMatchShapeExpr_cases s v pat hint with ⟨w, s2, he, hid2⟩ | ⟨er, s2, he, hid2⟩
    · rw [he]
      show idLookup s2.id2bind i = none
      rw [hid2]
      exact h
    · rw [he]
      show idLookup s2.id2bind i = none
      rw [hid2]
      exact h

/-- Over a whole run, an identity absent from `id2bind` and never recorded by
an `emit`/`emit_output` step stays absent. -/
theorem runB_preserves (reg : OpRegistry) (ops : List BOp) :
    ∀ (s : IRBuilderState) (i : Id),
      idLookup s.id2bind i = none → i ∉ (runB reg s ops).2 →
      idLookup (runB reg s ops).1.id2bind i = none := by
  induction ops with
  | nil => intro s i h _; exact h
  | cons op ops ih =>
    intro s i h hrec
    rcases hst : stepB reg s op with ⟨r, s1⟩
    cases r with
    | ok out =>
      have heq : runB reg s (op :: ops) =
          ((runB reg s1 ops).1, recordedOf op (.ok out) ++ (runB reg s1 ops).2) := by
        rw [runB, hst]
      rw [heq] at hrec ⊢
      simp only [List.mem_append] at hrec
      push_neg at hrec
      have h1 : idLookup s1.id2bind i = none := by
        have hp := stepB_preserves reg s op i h (by rw [hst]; exact hrec.1)
        rw [hst] at hp
        exact hp
      exact ih s1 i h1 hrec.2
    | error e =>
      have heq : runB reg s (op :: ops) = (s1, []) := by
        rw [runB, hst]
      rw [heq]
      have hp := stepB_preserves reg s op i h
        (by rw [hst, recordedOf_error]; simp)
      rw [hst] at hp
      exact hp

/-- C7: `lookup_binding` fails with the unbound-variable error for every
identity never recorded by a successful `emit`/`emit_output`; in particular
`emit_match_shape` never updates the `id2bind` map, so an identity bound only
by match-shape bindings remains unbound. -/
theorem LookupBinding_unbound (reg : OpRegistry) (ops : List BOp) :
    (∀ (s : IRBuilderState) (mb : MS), (EmitMatchShape s mb).2.id2bind = s.id2bind) ∧
    (∀ (s : IRBuilderState) (i : Id),
       idLookup s.id2bind i = none → i ∉ (runB reg s ops).2 →
       LookupBinding (runB reg s ops).1 i = .error .unboundVar) := by
  constructor
  · intro s mb
    rcases EmitMatchShape_cases s mb with ⟨s2, he, hid⟩ | ⟨er, he⟩
    · rw [he]
      exact hid
    · rw [he]
  · intro s i h hrec
    have hnone := runB_preserves reg ops s i h hrec
    unfold LookupBinding
    rw [hnone]

/-- Witness for `LookupBinding_unbound`: a var bound only by a match-shape
binding cannot be looked up. -/
theorem LookupBinding_unbound_witness :
    LookupBinding
      (runB opRegSample initState [BOp.beginDataflow, BOp.emitMatchShape msL]).1
      ⟨"lv0", 0⟩ = .error .unboundVar :=
  (LookupBinding_unbound opRegSample [BOp.beginDataflow, BOp.emitMatchShape msL]).2
    initState ⟨"lv0", 0⟩ rfl (by decide)

end Relax
